import Mathlib

/-!
# Billiard game: physics stepper and shot controller

A shallow embedding of `game_cpp/game.cpp`.

* `float` values are modelled by exact rationals `ℚ`; the literals `0.3f`, `0.995f`, ...
  stand for the decimal fractions they are written as.
* The two primitives whose result on rationals is not a rational operation, `sqrtf` and
  the floating-point division by a run-time value (which may be zero), are taken from a
  `FloatOps` record.  General theorems hold for every such record; where a proof needs the
  usual meaning of a primitive this is a stated hypothesis (`FloatOps.ExactDiv`, or an
  equation about `sqrtf` at the point concerned).  `FloatOps.rat` is a computable instance
  used for evaluation on concrete states.
* The seven-element `std::array`s are functions on `Fin 7`; an element write is
  `Function.update`.
* Calls into `Scene`/`Engine` (mesh creation, placement, destruction, progress bar) and the
  mesh bookkeeping of `class Table` have no effect on the game state and are left out.
-/

/-- Two-component vector, `class Vector2` of the source. -/
structure Vector2 where
  x : ℚ
  y : ℚ
deriving DecidableEq

/-- The floating-point primitives that exact rational arithmetic does not provide. -/
structure FloatOps where
  /-- Stands for `sqrtf`. -/
  sqrtf : ℚ → ℚ
  /-- Stands for `float / float` with a divisor computed at run time. -/
  divf : ℚ → ℚ → ℚ

namespace FloatOps

/-- Division behaves as exact division whenever the divisor is not zero. -/
def ExactDiv (F : FloatOps) : Prop := ∀ a b : ℚ, b ≠ 0 → F.divf a b = a / b

/-- Newton iteration for the integer square root from the guess `x`; every step lowers the
guess, so `fuel ≥ x` steps are enough. -/
def newton (n : ℕ) : ℕ → ℕ → ℕ
  | 0, x => x
  | fuel + 1, x => if (x + n / x) / 2 < x then newton n fuel ((x + n / x) / 2) else x

/-- A starting value above the square root of `n`. -/
def guess (n : ℕ) : ℕ :=
  if n < 2 ^ 8 then 2 ^ 4
  else if n < 2 ^ 16 then 2 ^ 8
  else if n < 2 ^ 24 then 2 ^ 12
  else if n < 2 ^ 32 then 2 ^ 16
  else if n < 2 ^ 40 then 2 ^ 20
  else if n < 2 ^ 48 then 2 ^ 24
  else if n < 2 ^ 56 then 2 ^ 28
  else if n < 2 ^ 64 then 2 ^ 32
  else n

/-- Floor of the square root of a natural number. -/
def isqrt (n : ℕ) : ℕ := newton n (guess n) (guess n)

/-- The resolution of `ratSqrt`: its values are multiples of `1 / scale`. -/
def scale : ℕ := 1000000

/-- Rational square root, rounded down to a multiple of `1 / scale`:
`⌊√⌊q · scale²⌋⌋ / scale`.  It is exact on the squares of multiples of `1 / scale`. -/
def ratSqrt (q : ℚ) : ℚ :=
  (isqrt (q.num.toNat * (scale * scale) / q.den) : ℚ) / (scale : ℚ)

/-- Computable instance: `ratSqrt` and exact division. -/
def rat : FloatOps := ⟨ratSqrt, fun a b => a / b⟩

end FloatOps

namespace Vector2

/-- The source's `operator+` and `operator+=`. -/
def add (a b : Vector2) : Vector2 := ⟨a.x + b.x, a.y + b.y⟩

/-- The source's `operator-` and `operator-=`. -/
def sub (a b : Vector2) : Vector2 := ⟨a.x - b.x, a.y - b.y⟩

/-- The source's `operator*` and `operator*=` (scalar on the right). -/
def mul (a : Vector2) (k : ℚ) : Vector2 := ⟨a.x * k, a.y * k⟩

/-- The source's `operator/` and `operator/=` (scalar on the right). -/
def div (F : FloatOps) (a : Vector2) (k : ℚ) : Vector2 := ⟨F.divf a.x k, F.divf a.y k⟩

end Vector2

namespace Params

namespace Table

def width : ℚ := 15
def height : ℚ := 8
def pocketRadius : ℚ := 0.4

def pocketsPositions : List Vector2 :=
  [ ⟨-0.5 * width, -0.5 * height⟩,
    ⟨0, -0.5 * height⟩,
    ⟨0.5 * width, -0.5 * height⟩,
    ⟨-0.5 * width, 0.5 * height⟩,
    ⟨0, 0.5 * height⟩,
    ⟨0.5 * width, 0.5 * height⟩ ]

def ballsPositions : Fin 7 → Vector2 :=
  ![ ⟨-0.3 * width, 0⟩,
     ⟨0.2 * width, 0⟩,
     ⟨0.25 * width, 0.05 * height⟩,
     ⟨0.25 * width, -0.05 * height⟩,
     ⟨0.3 * width, 0.1 * height⟩,
     ⟨0.3 * width, 0⟩,
     ⟨0.3 * width, -0.1 * height⟩ ]

end Table

namespace Ball

def radius : ℚ := 0.3

end Ball

namespace Shot

def chargeTime : ℚ := 1

end Shot

end Params

namespace Game

/-- The mutable globals of `namespace Game`. -/
structure State where
  isChargingShot : Bool
  flagImpulses : Bool
  shotChargeProgress : ℚ
  mouseCoordinates : Vector2
  dtPositionOfBalls : Fin 7 → Vector2
  impulses : Fin 7 → ℚ
  proofExisting : Fin 7 → Bool
  dxdyVector : Fin 7 → Vector2

def tableBallMovingKoef : ℚ := 0.995
def tableEdgeKoef : ℚ := 0.89
def ballsCollisionKoef : ℚ := 0.997

/-- The indices `0 .. 6` in the order of `for (size_t i = 0; i < 7; ++i)`. -/
def allBalls : List (Fin 7) := [0, 1, 2, 3, 4, 5, 6]

/-- The globals as their initialisers leave them, before the first `init()`. -/
def globals : State :=
  { isChargingShot := false
    flagImpulses := false
    shotChargeProgress := 0
    mouseCoordinates := ⟨0, 0⟩
    dtPositionOfBalls := fun _ => ⟨0, 0⟩
    impulses := fun _ => 0
    proofExisting := fun _ => false
    dxdyVector := fun _ => ⟨0, 0⟩ }

/-- The function `Game::init`: every slot gets its start position, zero direction, `true`, zero impulse;
the staged mouse coordinates are cleared.  The three shot-controller globals
`isChargingShot`, `flagImpulses`, `shotChargeProgress` are not written. -/
def init (s : State) : State :=
  { s with
    dtPositionOfBalls := Params.Table.ballsPositions
    dxdyVector := fun _ => ⟨0, 0⟩
    proofExisting := fun _ => true
    impulses := fun _ => 0
    mouseCoordinates := ⟨0, 0⟩ }

/-- The function `Game::deinit`: the four arrays are value-initialised. -/
def deinit (s : State) : State :=
  { s with
    dtPositionOfBalls := fun _ => ⟨0, 0⟩
    proofExisting := fun _ => false
    impulses := fun _ => 0
    dxdyVector := fun _ => ⟨0, 0⟩ }

/-- The value `flagImpulses` gets at the start of `update`: some impulse is not zero. -/
def moving (s : State) : Bool := allBalls.any fun i => decide (s.impulses i ≠ 0)

/-- Aim resolution, lines 268-278: only for ball 0 and only when its direction is zero. -/
def aim (F : FloatOps) (i : Fin 7) (s : State) : State :=
  if i = 0 ∧ (s.dxdyVector i).x = 0 ∧ (s.dxdyVector i).y = 0 then
    let d : Vector2 :=
      ⟨s.mouseCoordinates.x - (s.dtPositionOfBalls 0).x,
       s.mouseCoordinates.y - (s.dtPositionOfBalls 0).y⟩
    let length := F.sqrtf (d.x ^ 2 + d.y ^ 2)
    { s with
      mouseCoordinates := ⟨0, 0⟩
      dxdyVector := Function.update s.dxdyVector i (d.div F length) }
  else s

/-- Integration with friction and the rest snap, lines 280-293. -/
def integrate (i : Fin 7) (s : State) : State :=
  if (s.dxdyVector i).x ≠ 0 ∧ (s.dxdyVector i).y ≠ 0 then
    let V : Vector2 := ⟨(s.dxdyVector i).x * s.impulses i, (s.dxdyVector i).y * s.impulses i⟩
    let pos := Function.update s.dtPositionOfBalls i ((s.dtPositionOfBalls i).add V)
    let imp := s.impulses i * tableBallMovingKoef
    if imp < 0.01 then
      { s with
        dtPositionOfBalls := pos
        impulses := Function.update s.impulses i 0
        dxdyVector := Function.update s.dxdyVector i ⟨0, 0⟩ }
    else
      { s with
        dtPositionOfBalls := pos
        impulses := Function.update s.impulses i imp }
  else s

/-- One iteration of the "Balls moving" loop. -/
def moveBall (F : FloatOps) (s : State) (i : Fin 7) : State :=
  if s.proofExisting i = false then s else integrate i (aim F i s)

/-- The "Balls moving" loop, lines 264-294. -/
def movePhase (F : FloatOps) (s : State) : State := allBalls.foldl (moveBall F) s

/-- The distance of the centres of balls `i` and `j` as the collision loop computes it,
with the substitution of `0.01` for zero. -/
def centreDistance (F : FloatOps) (s : State) (i j : Fin 7) : ℚ :=
  let N : Vector2 := (s.dtPositionOfBalls i).sub (s.dtPositionOfBalls j)
  let distance := F.sqrtf (N.x * N.x + N.y * N.y)
  if distance = 0 then 0.01 else distance

/-- The collision test of line 316. -/
def collides (F : FloatOps) (s : State) (i j : Fin 7) : Prop :=
  centreDistance F s i j ≤ Params.Ball.radius * 2

instance (F : FloatOps) (s : State) (i j : Fin 7) : Decidable (collides F s i j) := by
  unfold collides; infer_instance

/-- The unit vector `uN` of line 319, along the line of centres at detection. -/
def unitNormal (F : FloatOps) (s : State) (i j : Fin 7) : Vector2 :=
  ((s.dtPositionOfBalls i).sub (s.dtPositionOfBalls j)).div F (centreDistance F s i j)

/-- The clamp of lines 333-336. -/
def clampDt (Dt : ℚ) : ℚ :=
  let Dt := if Dt > 0.6 then 0.6 else Dt
  if Dt < -0.6 then -0.6 else Dt

/-- Collision resolution, the body of `if (distance <= radius * 2)`, lines 318-378. -/
def resolve (F : FloatOps) (s : State) (i j : Fin 7) : State :=
  let di := s.dxdyVector i
  let dj := s.dxdyVector j
  let distance := centreDistance F s i j
  let uN := unitNormal F s i j
  let uT : Vector2 := ⟨-uN.y, uN.x⟩
  let vn1 := uN.x * di.x + uN.y * di.y
  let vt1 := uT.x * di.x + uT.y * di.y
  let vn2 := uN.x * dj.x + uN.y * dj.y
  let Dt := clampDt (F.divf (Params.Ball.radius * 2 - distance) (vn2 - vn1))
  let pos1 := Function.update s.dtPositionOfBalls i ((s.dtPositionOfBalls i).sub ⟨di.x * Dt, di.y * Dt⟩)
  let pos2 := Function.update pos1 j ((pos1 j).sub ⟨dj.x * Dt, dj.y * Dt⟩)
  let N := (pos2 i).sub (pos2 j)
  let distance := F.sqrtf (N.x * N.x + N.y * N.y)
  let distance := if distance = 0 then 0.01 else distance
  let uN := N.div F distance
  let vn2 := uN.x * dj.x + uN.y * dj.y
  let vt2 := uT.x * dj.x + uT.y * dj.y
  let vn1N := vn2
  let vt1N := vt1
  let vn2N := vn1
  let vt2N := vt2
  let vnV1 : Vector2 := ⟨vn1N * uN.x, vn1N * uN.y⟩
  let vtV1 : Vector2 := ⟨vt1N * uT.x, vt1N * uT.y⟩
  let vnV2 : Vector2 := ⟨vn2N * uN.x, vn2N * uN.y⟩
  let vtV2 : Vector2 := ⟨vt2N * uT.x, vt2N * uT.y⟩
  let dir1 := Function.update s.dxdyVector i (vnV1.add vtV1)
  let dir2 := Function.update dir1 j (vnV2.add vtV2)
  let pos3 := Function.update pos2 i ((pos2 i).add ((dir2 i).mul Dt))
  let pos4 := Function.update pos3 j ((pos3 j).add ((dir2 j).mul Dt))
  let imp1 :=
    if s.impulses i = 0 then Function.update s.impulses i (s.impulses j)
    else Function.update s.impulses j (s.impulses i)
  let imp2 := Function.update imp1 i (imp1 i * ballsCollisionKoef)
  let imp3 := Function.update imp2 j (imp2 j * ballsCollisionKoef)
  { s with dtPositionOfBalls := pos4, dxdyVector := dir2, impulses := imp3 }

/-- One iteration of the inner collision loop, for the pair `(i, j)`. -/
def collidePair (F : FloatOps) (i : Fin 7) (s : State) (j : Fin 7) : State :=
  if s.proofExisting j = false then s
  else if collides F s i j then resolve F s i j else s

/-- One iteration of the outer collision loop: `j` runs over `i + 1 .. 6`. -/
def collideBall (F : FloatOps) (s : State) (i : Fin 7) : State :=
  if s.proofExisting i = false then s
  else (allBalls.filter fun j => i < j).foldl (collidePair F i) s

/-- The "Balls collisions" loop, lines 297-381. -/
def collisionPhase (F : FloatOps) (s : State) : State := allBalls.foldl (collideBall F) s

/-- One iteration of the "Walls collisions" loop, lines 385-406. -/
def wallBall (s : State) (i : Fin 7) : State :=
  if s.impulses i ≠ 0 then
    let p := s.dtPositionOfBalls i
    let d := s.dxdyVector i
    if p.x + Params.Ball.radius ≥ Params.Table.width / 2 then
      { s with
        dtPositionOfBalls := Function.update s.dtPositionOfBalls i
          ⟨Params.Table.width / 2 - Params.Ball.radius, p.y⟩
        dxdyVector := Function.update s.dxdyVector i ⟨d.x * -1, d.y⟩
        impulses := Function.update s.impulses i (s.impulses i * tableEdgeKoef) }
    else if p.x - Params.Ball.radius ≤ -Params.Table.width / 2 then
      { s with
        dtPositionOfBalls := Function.update s.dtPositionOfBalls i
          ⟨-(Params.Table.width / 2) + Params.Ball.radius, p.y⟩
        dxdyVector := Function.update s.dxdyVector i ⟨d.x * -1, d.y⟩
        impulses := Function.update s.impulses i (s.impulses i * tableEdgeKoef) }
    else if p.y + Params.Ball.radius ≥ Params.Table.height / 2 then
      { s with
        dtPositionOfBalls := Function.update s.dtPositionOfBalls i
          ⟨p.x, Params.Table.height / 2 - Params.Ball.radius⟩
        dxdyVector := Function.update s.dxdyVector i ⟨d.x, d.y * -1⟩
        impulses := Function.update s.impulses i (s.impulses i * tableEdgeKoef) }
    else if p.y - Params.Ball.radius ≤ -Params.Table.height / 2 then
      { s with
        dtPositionOfBalls := Function.update s.dtPositionOfBalls i
          ⟨p.x, -(Params.Table.height / 2) + Params.Ball.radius⟩
        dxdyVector := Function.update s.dxdyVector i ⟨d.x, d.y * -1⟩
        impulses := Function.update s.impulses i (s.impulses i * tableEdgeKoef) }
    else s
  else s

/-- The "Walls collisions" loop, lines 384-407. -/
def wallPhase (s : State) : State := allBalls.foldl wallBall s

/-- The state at the start of the pocket loop: after motion, collisions and walls. -/
def beforePockets (F : FloatOps) (s : State) : State :=
  wallPhase (collisionPhase F (movePhase F s))

/-- The distance of ball `i` to the pocket centre `w`, lines 416-417. -/
def pocketDistance (F : FloatOps) (s : State) (w : Vector2) (i : Fin 7) : ℚ :=
  F.sqrtf (((s.dtPositionOfBalls i).x - w.x) ^ 2 + ((s.dtPositionOfBalls i).y - w.y) ^ 2)

/-- The capture test of line 420. -/
def inPocket (F : FloatOps) (s : State) (w : Vector2) (i : Fin 7) : Prop :=
  pocketDistance F s w i < Params.Ball.radius + Params.Table.pocketRadius / 1.5

instance (F : FloatOps) (s : State) (w : Vector2) (i : Fin 7) : Decidable (inPocket F s w i) := by
  unfold inPocket; infer_instance

/-- Capture of a ball other than the player ball, lines 433-436. -/
def capture (s : State) (i : Fin 7) : State :=
  { s with
    proofExisting := Function.update s.proofExisting i false
    impulses := Function.update s.impulses i 0
    dtPositionOfBalls := Function.update s.dtPositionOfBalls i ⟨0, 0⟩
    dxdyVector := Function.update s.dxdyVector i ⟨0, 0⟩ }

/-- The pairs (pocket, ball) in the order the two nested loops of lines 410-411 visit
them. -/
def pocketChecks : List (Vector2 × Fin 7) :=
  Params.Table.pocketsPositions.flatMap fun w => allBalls.map fun i => (w, i)

/-- The pocket loops over the remaining checks.  The result is the state and whether
`update` has returned early through the player-ball branch (`deinit(); init(); return;`). -/
def pocketLoop (F : FloatOps) : List (Vector2 × Fin 7) → State → State × Bool
  | [], s => (s, false)
  | (w, i) :: rest, s =>
    if s.proofExisting i = false then pocketLoop F rest s
    else if inPocket F s w i then
      if i = 0 then (init (deinit s), true)
      else pocketLoop F rest (capture s i)
    else pocketLoop F rest s

/-- The "ball is in some pocket" loops, lines 410-440. -/
def pocketPhase (F : FloatOps) (s : State) : State × Bool := pocketLoop F pocketChecks s

/-- The charge tick, lines 451-453. -/
def chargeTick (dt : ℚ) (s : State) : State :=
  if s.isChargingShot = true ∧ s.flagImpulses = false then
    { s with shotChargeProgress := min (s.shotChargeProgress + dt / Params.Shot.chargeTime) 1 }
  else s

/-- The function `Game::update`. -/
def update (F : FloatOps) (dt : ℚ) (s : State) : State :=
  let s := { s with flagImpulses := moving s }
  if s.flagImpulses = true then
    let r := pocketPhase F (beforePockets F s)
    if r.2 = true then r.1 else chargeTick dt r.1
  else chargeTick dt s

/-- The state of `update` at the start of the pocket loops, in a frame in which some ball
is moving: the flag is set and motion, collisions and walls have been processed. -/
def atPockets (F : FloatOps) (s : State) : State :=
  beforePockets F { s with flagImpulses := moving s }

/-- Whether `update` takes the player-ball branch of the pocket loop in this frame. -/
def resets (F : FloatOps) (s : State) : Bool :=
  moving s && (pocketPhase F (atPockets F s)).2

/-- The function `Game::mouseButtonPressed`. -/
def mouseButtonPressed (_x _y : ℚ) (s : State) : State :=
  { s with isChargingShot := true }

/-- The function `Game::mouseButtonReleased`. -/
def mouseButtonReleased (x y : ℚ) (s : State) : State :=
  let s :=
    if s.flagImpulses = false then
      if (s.dtPositionOfBalls 0).x ≠ x ∧ (s.dtPositionOfBalls 0).y ≠ y then
        { s with
          impulses := Function.update s.impulses 0 (s.shotChargeProgress / 2)
          mouseCoordinates := ⟨x, y⟩ }
      else s
    else s
  { s with isChargingShot := false, shotChargeProgress := 0 }

/-- The state after the program's first `init()`. -/
def initial : State := init globals

/-- Game positions that follow the position `s0` by any calls of `update`,
`mouseButtonPressed` and `mouseButtonReleased`. -/
inductive ReachableFrom (F : FloatOps) (s0 : State) : State → Prop
  | start : ReachableFrom F s0 s0
  | update (dt : ℚ) {s : State} : ReachableFrom F s0 s → ReachableFrom F s0 (update F dt s)
  | pressed (x y : ℚ) {s : State} :
    ReachableFrom F s0 s → ReachableFrom F s0 (mouseButtonPressed x y s)
  | released (x y : ℚ) {s : State} :
    ReachableFrom F s0 s → ReachableFrom F s0 (mouseButtonReleased x y s)

/-- States the game can be in: `init()` followed by any calls of `update`,
`mouseButtonPressed` and `mouseButtonReleased`. -/
def Reachable (F : FloatOps) (s : State) : Prop := ReachableFrom F initial s

end Game

namespace Game

/-! ## Vocabulary of the statements and concrete positions -/

/-- The four per-ball entries of slot `k` are the same in `s` and `t`. -/
def SameBall (k : Fin 7) (s t : State) : Prop :=
  t.dtPositionOfBalls k = s.dtPositionOfBalls k ∧ t.dxdyVector k = s.dxdyVector k ∧
    t.impulses k = s.impulses k ∧ t.proofExisting k = s.proofExisting k

/-- The entries of a pocketed ball: impulse, position and direction are all zero. -/
def Cleared (k : Fin 7) (s : State) : Prop :=
  s.impulses k = 0 ∧ s.dtPositionOfBalls k = ⟨0, 0⟩ ∧ s.dxdyVector k = ⟨0, 0⟩

/-- A position with only the player ball on the table, rolling into the top right corner. -/
def cornerRun : State :=
  { isChargingShot := false
    flagImpulses := true
    shotChargeProgress := 0
    mouseCoordinates := ⟨0, 0⟩
    dtPositionOfBalls := fun i => if i = 0 then ⟨7.1, 3.6⟩ else ⟨0, 0⟩
    impulses := fun i => if i = 0 then 0.1 else 0
    proofExisting := fun i => decide (i = 0)
    dxdyVector := fun i => if i = 0 then ⟨0.6, 0.8⟩ else ⟨0, 0⟩ }

/-- Every pocketed ball other than the player ball has been cleared. -/
def CaptureInv (s : State) : Prop :=
  ∀ i : Fin 7, i ≠ 0 → s.proofExisting i = false → Cleared i s

/-- A position late in a game: ball 6 has been pocketed, the other balls are where `init()`
put them, and the player has just released a full-power shot. -/
def afterCapture : State :=
  { isChargingShot := false
    flagImpulses := false
    shotChargeProgress := 0
    mouseCoordinates := ⟨3, 1⟩
    dtPositionOfBalls := fun i => if i = 6 then ⟨0, 0⟩ else Params.Table.ballsPositions i
    impulses := fun i => if i = 0 then 0.5 else 0
    proofExisting := fun i => decide (i ≠ 6)
    dxdyVector := fun _ => ⟨0, 0⟩ }

/-- The three shot-controller globals are the same in `s` and `t`. -/
def SameShot (s t : State) : Prop :=
  t.isChargingShot = s.isChargingShot ∧ t.flagImpulses = s.flagImpulses ∧
    t.shotChargeProgress = s.shotChargeProgress

/-- The position after `init()`, the button held for one second of idle frames: the shot is
fully charged. -/
def charged : State := update FloatOps.rat 1 (mouseButtonPressed 0 0 initial)

/-- The wall loop finds ball `i` at or beyond a boundary. -/
def wallHit (s : State) (i : Fin 7) : Prop :=
  s.impulses i ≠ 0 ∧
    ((s.dtPositionOfBalls i).x + Params.Ball.radius ≥ Params.Table.width / 2 ∨
      (s.dtPositionOfBalls i).x - Params.Ball.radius ≤ -Params.Table.width / 2 ∨
      (s.dtPositionOfBalls i).y + Params.Ball.radius ≥ Params.Table.height / 2 ∨
      (s.dtPositionOfBalls i).y - Params.Ball.radius ≤ -Params.Table.height / 2)

instance (s : State) (i : Fin 7) : Decidable (wallHit s i) := by
  unfold wallHit; infer_instance

/-- Ball 1 alone on the table, about to run into the top right corner. -/
def cornerBall : State :=
  { isChargingShot := false
    flagImpulses := true
    shotChargeProgress := 0
    mouseCoordinates := ⟨0, 0⟩
    dtPositionOfBalls := fun i => if i = 1 then ⟨7.1, 3.65⟩ else ⟨0, 0⟩
    impulses := fun i => if i = 1 then 0.5 else 0
    proofExisting := fun i => decide (i = 1)
    dxdyVector := fun i => if i = 1 then ⟨0.6, 0.8⟩ else ⟨0, 0⟩ }

/-- Ball 1 alone on the table, about to run into the right cushion. -/
def cushionBall : State :=
  { cornerBall with dtPositionOfBalls := fun i => if i = 1 then ⟨7.1, 1⟩ else ⟨0, 0⟩ }

/-- Balls 1 and 2 alone on the table and overlapping: their centres are `0.5` apart.  Ball 1
moves up and to the left, ball 2 runs into it from below. -/
def overlap : State :=
  { isChargingShot := false
    flagImpulses := true
    shotChargeProgress := 0
    mouseCoordinates := ⟨0, 0⟩
    dtPositionOfBalls := fun i => if i = 1 then ⟨0.3, 0.4⟩ else ⟨0, 0⟩
    impulses := fun i => if i = 1 then 0.4 else if i = 2 then 0.2 else 0
    proofExisting := fun i => decide (i = 1 ∨ i = 2)
    dxdyVector := fun i =>
      if i = 1 then ⟨-4 / 5, 3 / 5⟩ else if i = 2 then ⟨12 / 13, -5 / 13⟩ else ⟨0, 0⟩ }

/-- The component of the direction of ball `i` along `u`, as in lines 325-329. -/
def component (u : Vector2) (s : State) (i : Fin 7) : ℚ :=
  u.x * (s.dxdyVector i).x + u.y * (s.dxdyVector i).y

/-- The tangent vector `uT` of line 322. -/
def unitTangent (F : FloatOps) (s : State) (i j : Fin 7) : Vector2 :=
  ⟨-(unitNormal F s i j).y, (unitNormal F s i j).x⟩

/-- Balls 1 and 2 alone on the table, touching (centres `0.6` apart) and moving straight at
each other along the line of centres. -/
def headOn : State :=
  { isChargingShot := false
    flagImpulses := true
    shotChargeProgress := 0
    mouseCoordinates := ⟨0, 0⟩
    dtPositionOfBalls := fun i => if i = 1 then ⟨0.36, 0.48⟩ else ⟨0, 0⟩
    impulses := fun i => if i = 1 then 0.4 else if i = 2 then 0.2 else 0
    proofExisting := fun i => decide (i = 1 ∨ i = 2)
    dxdyVector := fun i =>
      if i = 1 then ⟨-0.6, -0.8⟩ else if i = 2 then ⟨0.6, 0.8⟩ else ⟨0, 0⟩ }

/-- The state of `update` after the "Balls moving" loop, in a frame in which some ball is
moving. -/
def afterMove (F : FloatOps) (s : State) : State :=
  movePhase F { s with flagImpulses := moving s }

/-- The state of `update` after the "Balls collisions" loop. -/
def afterCollisions (F : FloatOps) (s : State) : State := collisionPhase F (afterMove F s)

/-- The inner collision loop, recording whether ball `k` is one of a pair that is resolved. -/
def collidePairT (F : FloatOps) (k i : Fin 7) (p : State × Bool) (j : Fin 7) : State × Bool :=
  (collidePair F i p.1 j,
    p.2 || (decide (k = i ∨ k = j) && (p.1.proofExisting j && decide (collides F p.1 i j))))

/-- The outer collision loop, recording whether ball `k` is one of a pair that is resolved. -/
def collideBallT (F : FloatOps) (k : Fin 7) (p : State × Bool) (i : Fin 7) : State × Bool :=
  if p.1.proofExisting i = false then p
  else (allBalls.filter fun j => i < j).foldl (collidePairT F k i) p

/-- Whether ball `k` takes part in a collision that the "Balls collisions" loop, started in
`s`, resolves. -/
def inCollision (F : FloatOps) (k : Fin 7) (s : State) : Bool :=
  (allBalls.foldl (collideBallT F k) (s, false)).2

/-- The invariant of the recording loops: the state is that of the plain loops, and while
nothing is recorded slot `k` is as at the start. -/
def TraceInv (k : Fin 7) (s t : State) (p : State × Bool) : Prop :=
  p.1 = t ∧ (p.2 = false → SameBall k s t)

/-- The player ball at rest at its start position and ball 1 rolling up and to the right from
`(1, 1)`; the other balls have been pocketed. -/
def rolling (d : Vector2) (I : ℚ) : State :=
  { isChargingShot := false
    flagImpulses := true
    shotChargeProgress := 0
    mouseCoordinates := ⟨0, 0⟩
    dtPositionOfBalls := fun i => if i = 0 then ⟨-4.5, 0⟩ else if i = 1 then ⟨1, 1⟩ else ⟨0, 0⟩
    impulses := fun i => if i = 1 then I else 0
    proofExisting := fun i => decide (i = 0 ∨ i = 1)
    dxdyVector := fun i => if i = 1 then d else ⟨0, 0⟩ }

/-- The direction that aim resolution computes for a target `(x, y)`: the vector from the
player ball to the target, divided by its length (lines 270-276). -/
def aimDirection (F : FloatOps) (s : State) (x y : ℚ) : Vector2 :=
  Vector2.div F ⟨x - (s.dtPositionOfBalls 0).x, y - (s.dtPositionOfBalls 0).y⟩
    (F.sqrtf ((x - (s.dtPositionOfBalls 0).x) ^ 2 + (y - (s.dtPositionOfBalls 0).y) ^ 2))

/-- States the program can be in: the globals as initialised, then any calls of `init`,
`update` with a frame time `dt ≥ 0`, `mouseButtonPressed` and `mouseButtonReleased`.  The
states reachable from `init()` are among them. -/
inductive Played (F : FloatOps) : State → Prop
  | start : Played F globals
  | init {s : State} : Played F s → Played F (init s)
  | update (dt : ℚ) (h : 0 ≤ dt) {s : State} : Played F s → Played F (update F dt s)
  | pressed (x y : ℚ) {s : State} : Played F s → Played F (mouseButtonPressed x y s)
  | released (x y : ℚ) {s : State} : Played F s → Played F (mouseButtonReleased x y s)

/-- The player ball rolling into the top right corner while the button is held and the shot
is half charged. -/
def cornerRunCharging : State :=
  { cornerRun with isChargingShot := true, shotChargeProgress := 0.5, mouseCoordinates := ⟨3, 1⟩ }

/-- The player ball alone on the table at `(1.5, 2)`, at rest direction `(0, 0)`, with impulse
`I` and the mouse coordinates cleared. -/
def unaimed (I : ℚ) : State :=
  { isChargingShot := false
    flagImpulses := true
    shotChargeProgress := 0
    mouseCoordinates := ⟨0, 0⟩
    dtPositionOfBalls := fun i => if i = 0 then ⟨1.5, 2⟩ else ⟨0, 0⟩
    impulses := fun i => if i = 0 then I else 0
    proofExisting := fun i => decide (i = 0)
    dxdyVector := fun _ => ⟨0, 0⟩ }

/-- The position after `init()` with ball 1 set rolling up and to the left; the player ball
rests at its start position and the mouse coordinates are cleared. -/
def breakOff : State :=
  { initial with
    flagImpulses := true
    impulses := fun i => if i = 1 then 0.3 else 0
    dxdyVector := fun i => if i = 1 then ⟨-0.6, 0.8⟩ else ⟨0, 0⟩ }

/-- Ball 1 alone on the table at `(1, 1)` with direction `(1, 0)` and impulse `0.5`. -/
def stuckBall : State :=
  { isChargingShot := false
    flagImpulses := true
    shotChargeProgress := 0
    mouseCoordinates := ⟨0, 0⟩
    dtPositionOfBalls := fun i => if i = 1 then ⟨1, 1⟩ else ⟨0, 0⟩
    impulses := fun i => if i = 1 then 0.5 else 0
    proofExisting := fun i => decide (i = 1)
    dxdyVector := fun i => if i = 1 then ⟨1, 0⟩ else ⟨0, 0⟩ }

/-- Every entry of an impulse array lies between 0 and `0.5`. -/
def InRange (f : Fin 7 → ℚ) : Prop := ∀ i, 0 ≤ f i ∧ f i ≤ 0.5

/-- A direction is the zero vector or has length 1. -/
def UnitOrZero (v : Vector2) : Prop := v = ⟨0, 0⟩ ∨ v.x * v.x + v.y * v.y = 1

instance (v : Vector2) : Decidable (UnitOrZero v) := by
  unfold UnitOrZero; infer_instance

/-- Ball 1 at rest and ball 2 rolling towards it; after the "Balls moving" loop their
centres are exactly `0.6` apart, ball 2 arriving at an angle to the line of centres. -/
def glancing : State :=
  { isChargingShot := false
    flagImpulses := true
    shotChargeProgress := 0
    mouseCoordinates := ⟨0, 0⟩
    dtPositionOfBalls := fun i => if i = 1 then ⟨0.36, 0.48⟩ else if i = 2 then ⟨-0.16, -0.12⟩
      else ⟨0, 0⟩
    impulses := fun i => if i = 2 then 0.2 else 0
    proofExisting := fun i => decide (i = 1 ∨ i = 2)
    dxdyVector := fun i => if i = 2 then ⟨0.8, 0.6⟩ else ⟨0, 0⟩ }

/-- A direction is the zero vector or has squared length `c`. -/
def LenOrZero (c : ℚ) (v : Vector2) : Prop := v = ⟨0, 0⟩ ∨ v.x * v.x + v.y * v.y = c

/-- The aim-resolution step runs in the next `update`: some impulse is nonzero, so the
"Balls moving" loop is entered, and the player ball is alive with direction `(0, 0)`. -/
def aimRuns (s : State) : Prop :=
  moving s = true ∧ s.proofExisting 0 = true ∧ s.dxdyVector 0 = ⟨0, 0⟩

instance (s : State) : Decidable (aimRuns s) := by
  unfold aimRuns; infer_instance

/-- The squared length of the vector from the player ball to the stored mouse coordinates,
the argument of `sqrtf` in the aim-resolution step (line 275). -/
def aimSq (s : State) : ℚ :=
  (s.mouseCoordinates.x - (s.dtPositionOfBalls 0).x) ^ 2 +
    (s.mouseCoordinates.y - (s.dtPositionOfBalls 0).y) ^ 2

/-- The direction the aim-resolution step computes from the stored mouse coordinates: the
vector to the target divided by `sqrtf` of its squared length (lines 268-278). -/
def aimed (F : FloatOps) (s : State) : Vector2 :=
  aimDirection F s s.mouseCoordinates.x s.mouseCoordinates.y

end Game

namespace FloatOps

/-! ## The computable square root is the floor of the square root -/

theorem newton_eq_iter (n : ℕ) : ∀ (fuel x : ℕ), x ≤ fuel → newton n fuel x = Nat.sqrt.iter n x
  | 0, x, h => by
    have hx : x = 0 := by omega
    subst hx
    unfold Nat.sqrt.iter
    simp [newton]
  | fuel + 1, x, h => by
    unfold newton
    rw [Nat.sqrt.iter]
    split_ifs with h1
    · exact newton_eq_iter n fuel _ (by omega)
    · rfl

theorem lt_guess_sq (n : ℕ) : n < (guess n + 1) * (guess n + 1) := by
  unfold guess
  split_ifs <;> first | omega | nlinarith

/-- The computed root is the floor of the square root. -/
theorem isqrt_eq_sqrt (n : ℕ) : isqrt n = Nat.sqrt n := by
  apply Nat.eq_sqrt.2
  unfold isqrt
  rw [newton_eq_iter n _ _ (le_refl _)]
  exact ⟨Nat.sqrt.iter_sq_le _ _, Nat.sqrt.lt_iter_succ_sq _ _ (lt_guess_sq n)⟩

end FloatOps

namespace Game

/-! ## Frame lemmas: what one loop iteration can change -/

theorem SameBall.same {k : Fin 7} {s : State} : SameBall k s s :=
  ⟨Eq.refl _, Eq.refl _, Eq.refl _, Eq.refl _⟩

theorem SameBall.trans {k : Fin 7} {s t u : State} (h1 : SameBall k s t) (h2 : SameBall k t u) :
    SameBall k s u :=
  ⟨h2.1.trans h1.1, h2.2.1.trans h1.2.1, h2.2.2.1.trans h1.2.2.1, h2.2.2.2.trans h1.2.2.2⟩

/-- A fold of steps that each leave slot `k` alone leaves slot `k` alone. -/
theorem foldl_sameBall {α : Type} (k : Fin 7) (f : State → α → State) (l : List α)
    (h : ∀ s a, a ∈ l → SameBall k s (f s a)) (s : State) : SameBall k s (l.foldl f s) := by
  induction l generalizing s with
  | nil => exact SameBall.same
  | cons a l ih =>
    simp only [List.foldl_cons]
    exact (h s a (List.mem_cons_self a l)).trans
      (ih (fun s b hb => h s b (List.mem_cons_of_mem a hb)) (f s a))

/-- A fold of steps that each keep a predicate keeps it. -/
theorem foldl_keeps {α : Type} (p : State → Prop) (f : State → α → State) (l : List α)
    (h : ∀ s a, p s → p (f s a)) (s : State) (hs : p s) : p (l.foldl f s) := by
  induction l generalizing s with
  | nil => exact hs
  | cons a l ih => exact ih (f s a) (h s a hs)

theorem aim_sameBall (F : FloatOps) (s : State) {i k : Fin 7} (h : k ≠ i) :
    SameBall k s (aim F i s) := by
  unfold aim SameBall
  dsimp only
  split_ifs <;> simp [Function.update_noteq h]

theorem integrate_sameBall (s : State) {i k : Fin 7} (h : k ≠ i) :
    SameBall k s (integrate i s) := by
  unfold integrate SameBall
  dsimp only
  split_ifs <;> simp [Function.update_noteq h]

theorem moveBall_sameBall (F : FloatOps) (s : State) {i k : Fin 7} (h : k ≠ i) :
    SameBall k s (moveBall F s i) := by
  unfold moveBall
  split_ifs
  · exact SameBall.same
  · exact (aim_sameBall F s h).trans (integrate_sameBall _ h)

theorem moveBall_dead (F : FloatOps) (s : State) {i : Fin 7} (h : s.proofExisting i = false) :
    moveBall F s i = s := by
  unfold moveBall
  simp [h]

theorem resolve_sameBall (F : FloatOps) (s : State) {i j k : Fin 7} (hi : k ≠ i) (hj : k ≠ j) :
    SameBall k s (resolve F s i j) := by
  unfold resolve SameBall
  refine ⟨?_, ?_, ?_, ?_⟩
  · simp [Function.update_noteq hi, Function.update_noteq hj]
  · simp [Function.update_noteq hi, Function.update_noteq hj]
  · simp only []
    split_ifs <;> simp [Function.update_noteq hi, Function.update_noteq hj]
  · simp

theorem collidePair_sameBall (F : FloatOps) (s : State) {i j k : Fin 7} (hi : k ≠ i)
    (hj : k ≠ j ∨ s.proofExisting j = false) : SameBall k s (collidePair F i s j) := by
  unfold collidePair
  split_ifs with h1 h2
  · exact SameBall.same
  · rcases hj with hj | hj
    · exact resolve_sameBall F s hi hj
    · exact absurd hj h1
  · exact SameBall.same

theorem wallBall_sameBall (s : State) {i k : Fin 7} (h : k ≠ i) :
    SameBall k s (wallBall s i) := by
  unfold wallBall SameBall
  dsimp only
  split_ifs <;> simp [Function.update_noteq h]

theorem wallBall_rest (s : State) {i : Fin 7} (h : s.impulses i = 0) : wallBall s i = s := by
  unfold wallBall
  simp [h]

theorem capture_sameBall (s : State) {i k : Fin 7} (h : k ≠ i) : SameBall k s (capture s i) := by
  unfold capture SameBall
  simp [Function.update_noteq h]

/-! ## The alive flags are written by the pocket loop only -/

theorem aim_proofExisting (F : FloatOps) (i : Fin 7) (s : State) :
    (aim F i s).proofExisting = s.proofExisting := by
  unfold aim
  dsimp only
  split_ifs <;> rfl

theorem integrate_proofExisting (i : Fin 7) (s : State) :
    (integrate i s).proofExisting = s.proofExisting := by
  unfold integrate
  dsimp only
  split_ifs <;> rfl

theorem moveBall_proofExisting (F : FloatOps) (s : State) (i : Fin 7) :
    (moveBall F s i).proofExisting = s.proofExisting := by
  unfold moveBall
  split_ifs
  · rfl
  · rw [integrate_proofExisting, aim_proofExisting]

theorem movePhase_proofExisting (F : FloatOps) (s : State) :
    (movePhase F s).proofExisting = s.proofExisting :=
  foldl_keeps (fun t => t.proofExisting = s.proofExisting) (moveBall F) allBalls
    (fun t i h => (moveBall_proofExisting F t i).trans h) s rfl

theorem collidePair_proofExisting (F : FloatOps) (i : Fin 7) (s : State) (j : Fin 7) :
    (collidePair F i s j).proofExisting = s.proofExisting := by
  unfold collidePair resolve
  split_ifs <;> rfl

theorem collideBall_proofExisting (F : FloatOps) (s : State) (i : Fin 7) :
    (collideBall F s i).proofExisting = s.proofExisting := by
  unfold collideBall
  split_ifs
  · rfl
  · exact foldl_keeps (fun t => t.proofExisting = s.proofExisting) (collidePair F i) _
      (fun t j h => (collidePair_proofExisting F i t j).trans h) s rfl

theorem collisionPhase_proofExisting (F : FloatOps) (s : State) :
    (collisionPhase F s).proofExisting = s.proofExisting :=
  foldl_keeps (fun t => t.proofExisting = s.proofExisting) (collideBall F) allBalls
    (fun t i h => (collideBall_proofExisting F t i).trans h) s rfl

theorem wallBall_proofExisting (s : State) (i : Fin 7) :
    (wallBall s i).proofExisting = s.proofExisting := by
  unfold wallBall
  dsimp only
  split_ifs <;> rfl

theorem wallPhase_proofExisting (s : State) : (wallPhase s).proofExisting = s.proofExisting :=
  foldl_keeps (fun t => t.proofExisting = s.proofExisting) wallBall allBalls
    (fun t i h => (wallBall_proofExisting t i).trans h) s rfl

theorem beforePockets_proofExisting (F : FloatOps) (s : State) :
    (beforePockets F s).proofExisting = s.proofExisting := by
  unfold beforePockets
  rw [wallPhase_proofExisting, collisionPhase_proofExisting, movePhase_proofExisting]

/-! ## A pocketed ball at rest is skipped by every loop -/

theorem moveBall_sameBall_dead (F : FloatOps) (s : State) (i : Fin 7) {k : Fin 7}
    (hd : s.proofExisting k = false) : SameBall k s (moveBall F s i) := by
  by_cases h : k = i
  · subst h; rw [moveBall_dead F s hd]; exact SameBall.same
  · exact moveBall_sameBall F s h

theorem movePhase_sameBall_dead (F : FloatOps) (s : State) {k : Fin 7}
    (hd : s.proofExisting k = false) : SameBall k s (movePhase F s) :=
  foldl_keeps (fun t => SameBall k s t) (moveBall F) allBalls
    (fun t i h => h.trans (moveBall_sameBall_dead F t i (h.2.2.2.trans hd))) s SameBall.same

theorem collideBall_sameBall_dead (F : FloatOps) (s : State) (i : Fin 7) {k : Fin 7}
    (hd : s.proofExisting k = false) : SameBall k s (collideBall F s i) := by
  unfold collideBall
  split_ifs with hi
  · exact SameBall.same
  · have hki : k ≠ i := fun e => hi (e ▸ hd)
    refine foldl_keeps (fun t => SameBall k s t) (collidePair F i) _ (fun t j h => ?_) s
      SameBall.same
    refine h.trans (collidePair_sameBall F t hki ?_)
    by_cases hkj : k = j
    · exact Or.inr (hkj ▸ (h.2.2.2.trans hd))
    · exact Or.inl hkj

theorem collisionPhase_sameBall_dead (F : FloatOps) (s : State) {k : Fin 7}
    (hd : s.proofExisting k = false) : SameBall k s (collisionPhase F s) :=
  foldl_keeps (fun t => SameBall k s t) (collideBall F) allBalls
    (fun t i h => h.trans (collideBall_sameBall_dead F t i (h.2.2.2.trans hd))) s SameBall.same

theorem wallBall_sameBall_rest (s : State) (i : Fin 7) {k : Fin 7} (h0 : s.impulses k = 0) :
    SameBall k s (wallBall s i) := by
  by_cases h : k = i
  · subst h; rw [wallBall_rest s h0]; exact SameBall.same
  · exact wallBall_sameBall s h

theorem wallPhase_sameBall_rest (s : State) {k : Fin 7} (h0 : s.impulses k = 0) :
    SameBall k s (wallPhase s) :=
  foldl_keeps (fun t => SameBall k s t) wallBall allBalls
    (fun t i h => h.trans (wallBall_sameBall_rest t i (h.2.2.1.trans h0))) s SameBall.same

theorem beforePockets_sameBall_dead (F : FloatOps) (s : State) {k : Fin 7}
    (hd : s.proofExisting k = false) (h0 : s.impulses k = 0) :
    SameBall k s (beforePockets F s) := by
  unfold beforePockets
  have h1 := movePhase_sameBall_dead F s hd
  have h2 := collisionPhase_sameBall_dead F (movePhase F s) (h1.2.2.2.trans hd)
  have h12 := h1.trans h2
  exact h12.trans (wallPhase_sameBall_rest _ (h12.2.2.1.trans h0))

theorem pocketLoop_sameBall_dead (F : FloatOps) {k : Fin 7} :
    ∀ (l : List (Vector2 × Fin 7)) (s : State), s.proofExisting k = false →
      (pocketLoop F l s).2 = false → SameBall k s (pocketLoop F l s).1
  | [], s, _, _ => SameBall.same
  | (w, i) :: rest, s, hd, hr => by
    unfold pocketLoop at hr ⊢
    by_cases h1 : s.proofExisting i = false
    · rw [if_pos h1] at hr ⊢
      exact pocketLoop_sameBall_dead F rest s hd hr
    · rw [if_neg h1] at hr ⊢
      by_cases h2 : inPocket F s w i
      · rw [if_pos h2] at hr ⊢
        by_cases h3 : i = 0
        · rw [if_pos h3] at hr
          exact absurd hr (by simp)
        · rw [if_neg h3] at hr ⊢
          have hki : k ≠ i := fun e => h1 (e ▸ hd)
          have hc := capture_sameBall s hki
          exact hc.trans (pocketLoop_sameBall_dead F rest _ (hc.2.2.2.trans hd) hr)
      · rw [if_neg h2] at hr ⊢
        exact pocketLoop_sameBall_dead F rest s hd hr

theorem pocketLoop_cleared (F : FloatOps) {k : Fin 7} :
    ∀ (l : List (Vector2 × Fin 7)) (s : State),
      (s.proofExisting k = false → Cleared k s) →
      ((pocketLoop F l s).1.proofExisting k = false → Cleared k (pocketLoop F l s).1)
  | [], _, h => h
  | (w, i) :: rest, s, h => by
    unfold pocketLoop
    split_ifs with h1 h2 h3
    · exact pocketLoop_cleared F rest s h
    · intro hd; simp [init] at hd
    · refine pocketLoop_cleared F rest _ ?_
      intro hd
      by_cases hki : k = i
      · subst hki; simp [capture, Cleared]
      · have hc := capture_sameBall s hki
        have := h (hc.2.2.2.symm.trans hd)
        exact ⟨hc.2.2.1.trans this.1, hc.1.trans this.2.1, hc.2.1.trans this.2.2⟩
    · exact pocketLoop_cleared F rest s h

/-! ## `update` by cases on the moving flag -/

theorem moving_iff (s : State) : moving s = true ↔ ∃ i, s.impulses i ≠ 0 := by
  unfold moving allBalls
  simp only [List.any_cons, List.any_nil, Bool.or_false, Bool.or_eq_true, decide_eq_true_eq]
  constructor
  · intro h
    rcases h with h | h | h | h | h | h | h <;> exact ⟨_, h⟩
  · rintro ⟨i, hi⟩
    fin_cases i <;> simp_all

theorem update_of_moving (F : FloatOps) (dt : ℚ) (s : State) (h : moving s = true) :
    update F dt s =
      if (pocketPhase F (atPockets F s)).2 = true then (pocketPhase F (atPockets F s)).1
      else chargeTick dt (pocketPhase F (atPockets F s)).1 := by
  unfold update atPockets
  simp [h]

theorem update_of_idle (F : FloatOps) (dt : ℚ) (s : State) (h : moving s = false) :
    update F dt s = chargeTick dt { s with flagImpulses := false } := by
  unfold update
  simp [h]

theorem chargeTick_sameBall (dt : ℚ) (s : State) (k : Fin 7) :
    SameBall k s (chargeTick dt s) := by
  unfold chargeTick SameBall
  split_ifs <;> simp

theorem setFlag_sameBall (s : State) (b : Bool) (k : Fin 7) :
    SameBall k s { s with flagImpulses := b } := ⟨rfl, rfl, rfl, rfl⟩

theorem atPockets_proofExisting (F : FloatOps) (s : State) :
    (atPockets F s).proofExisting = s.proofExisting := by
  unfold atPockets
  rw [beforePockets_proofExisting]

theorem atPockets_sameBall_dead (F : FloatOps) (s : State) {k : Fin 7}
    (hd : s.proofExisting k = false) (h0 : s.impulses k = 0) : SameBall k s (atPockets F s) :=
  beforePockets_sameBall_dead F { s with flagImpulses := moving s } hd h0

/-! ## The pocket loop when the player ball is in a pocket -/

theorem inPocket_congr (F : FloatOps) {s t : State} {i : Fin 7} (w : Vector2)
    (h : t.dtPositionOfBalls i = s.dtPositionOfBalls i) : inPocket F t w i ↔ inPocket F s w i := by
  unfold inPocket pocketDistance
  rw [h]

theorem pocketLoop_player (F : FloatOps) (w : Vector2) :
    ∀ (l : List (Vector2 × Fin 7)) (s : State), (w, (0 : Fin 7)) ∈ l →
      s.proofExisting 0 = true → inPocket F s w 0 →
      ∃ t, pocketLoop F l s = (init (deinit t), true)
  | [], _, hm, _, _ => absurd hm (List.not_mem_nil _)
  | (v, i) :: rest, s, hm, ha, hin => by
    unfold pocketLoop
    by_cases h1 : s.proofExisting i = false
    · rw [if_pos h1]
      have hne : (w, (0 : Fin 7)) ≠ (v, i) := by
        intro e
        have e2 : (0 : Fin 7) = i := congrArg Prod.snd e
        rw [← e2, ha] at h1
        exact Bool.noConfusion h1
      exact pocketLoop_player F w rest s ((List.mem_cons.1 hm).resolve_left hne) ha hin
    · rw [if_neg h1]
      by_cases h2 : inPocket F s v i
      · rw [if_pos h2]
        by_cases h3 : i = 0
        · rw [if_pos h3]
          exact ⟨s, rfl⟩
        · rw [if_neg h3]
          have hne : (w, (0 : Fin 7)) ≠ (v, i) := fun e => h3 (congrArg Prod.snd e).symm
          have hc := capture_sameBall s (Ne.symm h3)
          exact pocketLoop_player F w rest _ ((List.mem_cons.1 hm).resolve_left hne)
            (hc.2.2.2.trans ha) ((inPocket_congr F w hc.1).2 hin)
      · rw [if_neg h2]
        have hne : (w, (0 : Fin 7)) ≠ (v, i) := by
          intro e
          have e1 : w = v := congrArg Prod.fst e
          have e2 : (0 : Fin 7) = i := congrArg Prod.snd e
          exact h2 (e1 ▸ e2 ▸ hin)
        exact pocketLoop_player F w rest s ((List.mem_cons.1 hm).resolve_left hne) ha hin

theorem mem_pocketChecks {w : Vector2} (hw : w ∈ Params.Table.pocketsPositions) (i : Fin 7) :
    (w, i) ∈ pocketChecks := by
  unfold pocketChecks
  refine List.mem_flatMap.2 ⟨w, hw, List.mem_map.2 ⟨i, ?_, rfl⟩⟩
  unfold allBalls
  fin_cases i <;> simp

/-- Claim C1 (player-capture reset).  In a frame in which some impulse is not zero, if at the
start of the pocket loops the player ball is alive and closer than
`radius + pocketRadius / 1.5` to a pocket centre, then after `update` all seven balls are at
`Params::Table::ballsPositions`, every impulse is 0, every direction is `(0, 0)` and every
alive flag is `true`. -/
theorem player_capture_resets (F : FloatOps) (dt : ℚ) (s : State)
    (hm : ∃ i, s.impulses i ≠ 0)
    (ha : (atPockets F s).proofExisting 0 = true)
    (w : Vector2) (hw : w ∈ Params.Table.pocketsPositions)
    (hin : inPocket F (atPockets F s) w 0) :
    (update F dt s).dtPositionOfBalls = Params.Table.ballsPositions ∧
      (∀ i, (update F dt s).impulses i = 0) ∧
      (∀ i, (update F dt s).dxdyVector i = ⟨0, 0⟩) ∧
      ∀ i, (update F dt s).proofExisting i = true := by
  obtain ⟨t, ht⟩ := pocketLoop_player F w pocketChecks (atPockets F s)
    (mem_pocketChecks hw 0) ha hin
  rw [update_of_moving F dt s ((moving_iff s).2 hm)]
  unfold pocketPhase
  rw [ht]
  simp [init]

theorem player_capture_resets_witness :
    (cornerRun.impulses 0 ≠ 0 ∧ (atPockets FloatOps.rat cornerRun).proofExisting 0 = true ∧
      inPocket FloatOps.rat (atPockets FloatOps.rat cornerRun) ⟨7.5, 4⟩ 0) ∧
    ((update FloatOps.rat 1 cornerRun).dtPositionOfBalls = Params.Table.ballsPositions ∧
      (∀ i, (update FloatOps.rat 1 cornerRun).impulses i = 0) ∧
      (∀ i, (update FloatOps.rat 1 cornerRun).dxdyVector i = ⟨0, 0⟩) ∧
      ∀ i, (update FloatOps.rat 1 cornerRun).proofExisting i = true) :=
  ⟨⟨by decide!, by decide!, by decide!⟩,
    player_capture_resets FloatOps.rat 1 cornerRun ⟨0, by decide!⟩ (by decide!) ⟨7.5, 4⟩
      (by decide!) (by decide!)⟩

/-! ## Pocketed balls stay as the capture left them -/

theorem Cleared.of_sameBall {k : Fin 7} {s t : State} (h : SameBall k s t) (hc : Cleared k s) :
    Cleared k t :=
  ⟨h.2.2.1.trans hc.1, h.1.trans hc.2.1, h.2.1.trans hc.2.2⟩

theorem captureInv_initial : CaptureInv initial := by
  intro i _ hd
  simp [initial, init] at hd

theorem update_sameBall_dead (F : FloatOps) (dt : ℚ) (s : State) {k : Fin 7}
    (hd : s.proofExisting k = false) (h0 : s.impulses k = 0) (hr : resets F s = false) :
    SameBall k s (update F dt s) := by
  cases hm : moving s
  · rw [update_of_idle F dt s hm]
    exact (setFlag_sameBall s false k).trans (chargeTick_sameBall dt _ k)
  · have hr2 : (pocketPhase F (atPockets F s)).2 = false := by
      unfold resets at hr
      simpa [hm] using hr
    rw [update_of_moving F dt s hm, hr2]
    simp only [Bool.false_eq_true, if_false]
    have h1 := atPockets_sameBall_dead F s hd h0
    have h2 := pocketLoop_sameBall_dead F pocketChecks (atPockets F s) (h1.2.2.2.trans hd) hr2
    exact (h1.trans h2).trans (chargeTick_sameBall dt _ k)

theorem chargeTick_cleared (dt : ℚ) (s : State) (k : Fin 7) :
    ((chargeTick dt s).proofExisting k = false → Cleared k (chargeTick dt s)) ↔
      (s.proofExisting k = false → Cleared k s) := by
  unfold chargeTick Cleared
  split_ifs <;> simp

theorem update_captureInv (F : FloatOps) (dt : ℚ) (s : State) (h : CaptureInv s) :
    CaptureInv (update F dt s) := by
  intro k hk
  cases hm : moving s
  · rw [update_of_idle F dt s hm, chargeTick_cleared]
    exact h k hk
  · rw [update_of_moving F dt s hm]
    have hat : (atPockets F s).proofExisting k = false → Cleared k (atPockets F s) := by
      intro hd
      rw [atPockets_proofExisting] at hd
      exact (h k hk hd).of_sameBall (atPockets_sameBall_dead F s hd (h k hk hd).1)
    have hp := pocketLoop_cleared F pocketChecks (atPockets F s) hat
    split_ifs
    · exact hp
    · rw [chargeTick_cleared]
      exact hp

theorem mouseButtonPressed_sameBall (x y : ℚ) (s : State) (k : Fin 7) :
    SameBall k s (mouseButtonPressed x y s) := ⟨rfl, rfl, rfl, rfl⟩

theorem mouseButtonReleased_sameBall (x y : ℚ) (s : State) {k : Fin 7} (hk : k ≠ 0) :
    SameBall k s (mouseButtonReleased x y s) := by
  unfold mouseButtonReleased SameBall
  dsimp only
  split_ifs <;> simp [Function.update_noteq hk]

theorem reachableFrom_captureInv (F : FloatOps) {s0 s : State} (h0 : CaptureInv s0)
    (hs : ReachableFrom F s0 s) : CaptureInv s := by
  induction hs with
  | start => exact h0
  | update dt _ ih => exact update_captureInv F dt _ ih
  | pressed x y _ ih =>
    intro k hk hd
    exact (ih k hk hd).of_sameBall (mouseButtonPressed_sameBall x y _ k)
  | @released x y t _ ih =>
    intro k hk hd
    have hsb := mouseButtonReleased_sameBall x y t hk
    exact (ih k hk (hsb.2.2.2.symm.trans hd)).of_sameBall hsb

/-- Claim C10 (capture idempotence).  The position after `init()` has no pocketed ball, and in
every state that follows a position in which the pocketed non-player balls are cleared - in
particular in every state reachable from `init()` - a non-player ball whose alive flag is
`false` has impulse 0, position `(0, 0)` and direction `(0, 0)`; every `update` that does
not take the player-capture branch, and every `mouseButtonPressed` and
`mouseButtonReleased`, leaves its alive flag, position, direction and impulse unchanged. -/
theorem capture_idempotence (F : FloatOps) :
    (∀ i, initial.proofExisting i = true) ∧
    ∀ s0 s : State, CaptureInv s0 → ReachableFrom F s0 s →
      ∀ i : Fin 7, i ≠ 0 → s.proofExisting i = false →
        Cleared i s ∧
        (∀ dt, resets F s = false → SameBall i s (update F dt s)) ∧
        (∀ x y, SameBall i s (mouseButtonPressed x y s)) ∧
        (∀ x y, SameBall i s (mouseButtonReleased x y s)) := by
  refine ⟨fun i => by simp [initial, init], ?_⟩
  intro s0 s h0 hs i hi hd
  have hc := reachableFrom_captureInv F h0 hs i hi hd
  exact ⟨hc, fun dt hr => update_sameBall_dead F dt s hd hc.1 hr,
    fun x y => mouseButtonPressed_sameBall x y s i,
    fun x y => mouseButtonReleased_sameBall x y s hi⟩

theorem capture_idempotence_witness :
    (update FloatOps.rat 1 afterCapture).proofExisting 6 = false ∧
      resets FloatOps.rat (update FloatOps.rat 1 afterCapture) = false ∧
      Cleared 6 (update FloatOps.rat 1 afterCapture) ∧
      SameBall 6 (update FloatOps.rat 1 afterCapture)
        (update FloatOps.rat 1 (update FloatOps.rat 1 afterCapture)) := by
  have hinv : CaptureInv afterCapture := by
    intro i hi hd
    have h6 : i = 6 := by
      simpa [afterCapture] using hd
    subst h6
    simp [Cleared, afterCapture]
  have hd : (update FloatOps.rat 1 afterCapture).proofExisting 6 = false := by decide!
  have hr : resets FloatOps.rat (update FloatOps.rat 1 afterCapture) = false := by decide!
  have h := (capture_idempotence FloatOps.rat).2 afterCapture (update FloatOps.rat 1 afterCapture)
    hinv (ReachableFrom.update 1 ReachableFrom.start) 6 (by decide) hd
  exact ⟨hd, hr, h.1, h.2.1 1 hr⟩

/-! ## The shot-controller globals are not written by the physics loops -/

theorem SameShot.unchanged {s : State} : SameShot s s := ⟨Eq.refl _, Eq.refl _, Eq.refl _⟩

theorem SameShot.andThen {s t u : State} (h1 : SameShot s t) (h2 : SameShot t u) :
    SameShot s u :=
  ⟨h2.1.trans h1.1, h2.2.1.trans h1.2.1, h2.2.2.trans h1.2.2⟩

theorem moveBall_sameShot (F : FloatOps) (s : State) (i : Fin 7) :
    SameShot s (moveBall F s i) := by
  unfold moveBall integrate aim SameShot
  dsimp only
  split_ifs <;> simp

theorem collidePair_sameShot (F : FloatOps) (i : Fin 7) (s : State) (j : Fin 7) :
    SameShot s (collidePair F i s j) := by
  unfold collidePair resolve SameShot
  split_ifs <;> simp

theorem collideBall_sameShot (F : FloatOps) (s : State) (i : Fin 7) :
    SameShot s (collideBall F s i) := by
  unfold collideBall
  split_ifs
  · exact SameShot.unchanged
  · exact foldl_keeps (fun t => SameShot s t) (collidePair F i) _
      (fun t j h => h.andThen (collidePair_sameShot F i t j)) s SameShot.unchanged

theorem wallBall_sameShot (s : State) (i : Fin 7) : SameShot s (wallBall s i) := by
  unfold wallBall SameShot
  dsimp only
  split_ifs <;> simp

theorem beforePockets_sameShot (F : FloatOps) (s : State) : SameShot s (beforePockets F s) := by
  unfold beforePockets movePhase collisionPhase wallPhase
  have h1 := foldl_keeps (fun t => SameShot s t) (moveBall F) allBalls
    (fun t i h => h.andThen (moveBall_sameShot F t i)) s SameShot.unchanged
  have h2 := foldl_keeps (fun t => SameShot s t) (collideBall F) allBalls
    (fun t i h => h.andThen (collideBall_sameShot F t i)) _ h1
  exact foldl_keeps (fun t => SameShot s t) wallBall allBalls
    (fun t i h => h.andThen (wallBall_sameShot t i)) _ h2

theorem pocketLoop_sameShot (F : FloatOps) :
    ∀ (l : List (Vector2 × Fin 7)) (s : State), SameShot s (pocketLoop F l s).1
  | [], _ => SameShot.unchanged
  | (w, i) :: rest, s => by
    unfold pocketLoop
    split_ifs
    · exact pocketLoop_sameShot F rest s
    · exact ⟨rfl, rfl, rfl⟩
    · exact SameShot.andThen ⟨rfl, rfl, rfl⟩ (pocketLoop_sameShot F rest (capture s i))
    · exact pocketLoop_sameShot F rest s

/-- The flag `update` leaves behind is the one it computed on entry, also when the frame
ends in the player-capture branch. -/
theorem update_flagImpulses (F : FloatOps) (dt : ℚ) (s : State) :
    (update F dt s).flagImpulses = moving s := by
  cases hm : moving s
  · rw [update_of_idle F dt s hm]
    unfold chargeTick
    split_ifs <;> rfl
  · rw [update_of_moving F dt s hm]
    have h1 : (atPockets F s).flagImpulses = moving s :=
      (beforePockets_sameShot F { s with flagImpulses := moving s }).2.1
    have h2 := (pocketLoop_sameShot F pocketChecks (atPockets F s)).2.1
    unfold pocketPhase
    split_ifs
    · rw [h2, h1, hm]
    · unfold chargeTick
      split_ifs <;> simp [h2, h1, hm]

/-- Claim C5 (release contract).  After `mouseButtonReleased(x, y)` the controller is idle and
`shotChargeProgress` is 0; and if `x` equals the player ball's x or `y` equals its y, every
ball's position, direction, impulse and alive flag and the staged mouse coordinates are as
before the call. -/
theorem release_contract (x y : ℚ) (s : State) :
    (mouseButtonReleased x y s).isChargingShot = false ∧
      (mouseButtonReleased x y s).shotChargeProgress = 0 ∧
      ((s.dtPositionOfBalls 0).x = x ∨ (s.dtPositionOfBalls 0).y = y →
        (mouseButtonReleased x y s).dtPositionOfBalls = s.dtPositionOfBalls ∧
        (mouseButtonReleased x y s).dxdyVector = s.dxdyVector ∧
        (mouseButtonReleased x y s).impulses = s.impulses ∧
        (mouseButtonReleased x y s).proofExisting = s.proofExisting ∧
        (mouseButtonReleased x y s).mouseCoordinates = s.mouseCoordinates) := by
  unfold mouseButtonReleased
  refine ⟨rfl, rfl, fun h => ?_⟩
  have hn : ¬((s.dtPositionOfBalls 0).x ≠ x ∧ (s.dtPositionOfBalls 0).y ≠ y) := by
    rintro ⟨h1, h2⟩
    rcases h with h | h
    · exact h1 h
    · exact h2 h
  dsimp only
  split_ifs <;> simp

theorem release_contract_witness :
    ((charged.dtPositionOfBalls 0).y = 0 ∧ charged.shotChargeProgress = 1) ∧
      (mouseButtonReleased 3 0 charged).shotChargeProgress = 0 ∧
      (mouseButtonReleased 3 0 charged).impulses = charged.impulses ∧
      (mouseButtonReleased 3 0 charged).mouseCoordinates = charged.mouseCoordinates := by
  have h := release_contract 3 0 charged
  have hy : (charged.dtPositionOfBalls 0).y = 0 := by decide!
  have h3 := h.2.2 (Or.inr hy)
  exact ⟨⟨hy, by decide!⟩, h.2.1, h3.2.2.1, h3.2.2.2.2⟩

/-- Claim C6 as the code has it (release gate).  For every state, `mouseButtonReleased(x, y)`
with `x ≠ position_0.x` and `y ≠ position_0.y` writes `impulse_0 = shotChargeProgress / 2`
and stages `(x, y)` when `flagImpulses` is `false`, and writes neither when it is `true`.
`flagImpulses` is `false` after `init()`, is left alone by the two mouse handlers, and after
every `update` holds what that `update` found on entry: whether some impulse was not zero. -/
theorem release_gate (F : FloatOps) (x y : ℚ) (s : State)
    (hx : (s.dtPositionOfBalls 0).x ≠ x) (hy : (s.dtPositionOfBalls 0).y ≠ y) :
    (s.flagImpulses = false →
        (mouseButtonReleased x y s).impulses =
          Function.update s.impulses 0 (s.shotChargeProgress / 2) ∧
        (mouseButtonReleased x y s).mouseCoordinates = ⟨x, y⟩) ∧
      (s.flagImpulses = true →
        (mouseButtonReleased x y s).impulses = s.impulses ∧
        (mouseButtonReleased x y s).mouseCoordinates = s.mouseCoordinates) ∧
      initial.flagImpulses = false ∧
      (∀ dt, (update F dt s).flagImpulses = true ↔ ∃ i, s.impulses i ≠ 0) ∧
      (mouseButtonPressed x y s).flagImpulses = s.flagImpulses ∧
      (mouseButtonReleased x y s).flagImpulses = s.flagImpulses := by
  refine ⟨fun h => ?_, fun h => ?_, rfl, fun dt => ?_, rfl, ?_⟩
  · unfold mouseButtonReleased
    simp [h, hx, hy]
  · unfold mouseButtonReleased
    simp [h]
  · rw [update_flagImpulses, moving_iff]
  · unfold mouseButtonReleased
    dsimp only
    split_ifs <;> rfl

theorem release_gate_witness :
    (mouseButtonReleased 3 1 charged).impulses 0 = 1 / 2 ∧
      (mouseButtonReleased 3 1 charged).mouseCoordinates = ⟨3, 1⟩ := by
  have h := (release_gate FloatOps.rat 3 1 charged (by decide!) (by decide!)).1 (by decide!)
  refine ⟨?_, h.2⟩
  rw [h.1, Function.update_same]
  decide!

/-- Claim C6 fails as stated.  Both states are reachable from `init()`.  In the first the
player ball has impulse `1/2` (a ball is moving in the claim's sense) and a second release
still writes `impulse_0` (now `shotChargeProgress / 2 = 0`) and stages its target.  In the
second every impulse is 0 (no ball is moving) and the release writes nothing, because
`flagImpulses` still holds what the last `update` found on entry. -/
theorem release_gate_counterexample :
    (Reachable FloatOps.rat (mouseButtonReleased 3 1 charged) ∧
      (∃ i, (mouseButtonReleased 3 1 charged).impulses i ≠ 0) ∧
      ((mouseButtonReleased 3 1 charged).dtPositionOfBalls 0).x ≠ 2 ∧
      ((mouseButtonReleased 3 1 charged).dtPositionOfBalls 0).y ≠ 2 ∧
      (mouseButtonReleased 2 2 (mouseButtonReleased 3 1 charged)).impulses 0 =
        (mouseButtonReleased 3 1 charged).shotChargeProgress / 2 ∧
      (mouseButtonReleased 2 2 (mouseButtonReleased 3 1 charged)).impulses 0 ≠
        (mouseButtonReleased 3 1 charged).impulses 0 ∧
      (mouseButtonReleased 2 2 (mouseButtonReleased 3 1 charged)).mouseCoordinates = ⟨2, 2⟩) ∧
    (Reachable FloatOps.rat
        (update FloatOps.rat 1 (mouseButtonReleased 3 1
          (update FloatOps.rat (1 / 50) (mouseButtonPressed 0 0 initial)))) ∧
      (∀ i, (update FloatOps.rat 1 (mouseButtonReleased 3 1
          (update FloatOps.rat (1 / 50) (mouseButtonPressed 0 0 initial)))).impulses i = 0) ∧
      (update FloatOps.rat 1 (mouseButtonReleased 3 1
          (update FloatOps.rat (1 / 50) (mouseButtonPressed 0 0 initial)))).shotChargeProgress
        = 0 ∧
      ((update FloatOps.rat 1 (mouseButtonReleased 3 1
          (update FloatOps.rat (1 / 50) (mouseButtonPressed 0 0 initial)))).dtPositionOfBalls
        0).x ≠ 2 ∧
      ((update FloatOps.rat 1 (mouseButtonReleased 3 1
          (update FloatOps.rat (1 / 50) (mouseButtonPressed 0 0 initial)))).dtPositionOfBalls
        0).y ≠ 2 ∧
      (mouseButtonReleased 2 2 (update FloatOps.rat 1 (mouseButtonReleased 3 1
          (update FloatOps.rat (1 / 50) (mouseButtonPressed 0 0 initial))))).mouseCoordinates
        ≠ ⟨2, 2⟩) := by
  refine ⟨⟨?_, ⟨0, by decide!⟩, by decide!, by decide!, by decide!, by decide!, by decide!⟩,
    ⟨?_, by decide!, by decide!, by decide!, by decide!, by decide!⟩⟩
  · exact ReachableFrom.released 3 1
      (ReachableFrom.update 1 (ReachableFrom.pressed 0 0 ReachableFrom.start))
  · exact ReachableFrom.update 1 (ReachableFrom.released 3 1
      (ReachableFrom.update (1 / 50) (ReachableFrom.pressed 0 0 ReachableFrom.start)))

/-! ## Loops whose iteration `i` reads and writes slot `i` only -/

/-- In a fold over distinct indices, slot `i` ends as iteration `i` alone would leave it,
when the other iterations leave slot `i` alone and iteration `i` reads slot `i` only. -/
theorem foldl_local (f : State → Fin 7 → State) (i : Fin 7)
    (hother : ∀ s a, i ≠ a → SameBall i s (f s a))
    (hlocal : ∀ s t, SameBall i s t → SameBall i (f s i) (f t i)) :
    ∀ (l : List (Fin 7)), l.Nodup → i ∈ l → ∀ s, SameBall i (f s i) (l.foldl f s)
  | [], _, hi, _ => absurd hi (List.not_mem_nil _)
  | a :: l, hnd, hi, s => by
    simp only [List.foldl_cons]
    by_cases ha : i = a
    · subst ha
      have hni : i ∉ l := (List.nodup_cons.1 hnd).1
      exact foldl_sameBall i f l (fun t b hb => hother t b (fun e => hni (e ▸ hb))) (f s i)
    · have hil : i ∈ l := (List.mem_cons.1 hi).resolve_left ha
      exact (hlocal s (f s a) (hother s a ha)).trans
        (foldl_local f i hother hlocal l (List.nodup_cons.1 hnd).2 hil (f s a))

theorem allBalls_nodup : allBalls.Nodup := by
  unfold allBalls
  decide

theorem mem_allBalls (i : Fin 7) : i ∈ allBalls := by
  unfold allBalls
  fin_cases i <;> simp

theorem wallBall_local (i : Fin 7) (s t : State) (h : SameBall i s t) :
    SameBall i (wallBall s i) (wallBall t i) := by
  obtain ⟨h1, h2, h3, h4⟩ := h
  unfold wallBall SameBall
  dsimp only
  rw [h1, h2, h3]
  split_ifs <;> simp [h1, h2, h3, h4]

/-- Slot `i` after the wall loop is slot `i` after its own iteration. -/
theorem wallPhase_at (s : State) (i : Fin 7) : SameBall i (wallBall s i) (wallPhase s) :=
  foldl_local wallBall i (fun t _ h => wallBall_sameBall t h) (wallBall_local i)
    allBalls allBalls_nodup (mem_allBalls i) s

/-- Claim C2 as the code has it (wall containment).  For every ball the wall loop finds at or
beyond a boundary, the position after the wall loop has `|x| ≤ width / 2`; it has
`|y| ≤ height / 2` when neither x-test matches (the matching test is top or bottom), and
also when `|y| ≤ height / 2` held before the wall loop. -/
theorem wall_containment (s : State) (i : Fin 7) (h : wallHit s i) :
    |((wallPhase s).dtPositionOfBalls i).x| ≤ Params.Table.width / 2 ∧
      ((¬ (s.dtPositionOfBalls i).x + Params.Ball.radius ≥ Params.Table.width / 2 ∧
          ¬ (s.dtPositionOfBalls i).x - Params.Ball.radius ≤ -Params.Table.width / 2) ∨
        |(s.dtPositionOfBalls i).y| ≤ Params.Table.height / 2 →
        |((wallPhase s).dtPositionOfBalls i).y| ≤ Params.Table.height / 2) := by
  obtain ⟨h0, ht⟩ := h
  rw [(wallPhase_at s i).1]
  unfold wallBall
  simp only [Params.Ball.radius, Params.Table.width, Params.Table.height] at ht ⊢
  rw [if_pos h0]
  split_ifs with h1 h2 h3 h4
  · simp only [Function.update_same]
    refine ⟨by rw [abs_le]; constructor <;> norm_num, fun hy => ?_⟩
    rcases hy with hy | hy
    · exact absurd h1 hy.1
    · exact hy
  · simp only [Function.update_same]
    refine ⟨by rw [abs_le]; constructor <;> norm_num, fun hy => ?_⟩
    rcases hy with hy | hy
    · exact absurd h2 hy.2
    · exact hy
  · simp only [Function.update_same]
    have h1' := not_le.1 h1
    have h2' := not_le.1 h2
    refine ⟨by rw [abs_le]; constructor <;> linarith, fun _ => ?_⟩
    rw [abs_le]; constructor <;> norm_num
  · simp only [Function.update_same]
    have h1' := not_le.1 h1
    have h2' := not_le.1 h2
    refine ⟨by rw [abs_le]; constructor <;> linarith, fun _ => ?_⟩
    rw [abs_le]; constructor <;> norm_num
  · rcases ht with ht | ht | ht | ht
    · exact absurd ht h1
    · exact absurd ht h2
    · exact absurd ht h3
    · exact absurd ht h4

theorem wall_containment_witness :
    wallHit (collisionPhase FloatOps.rat (movePhase FloatOps.rat cushionBall)) 1 ∧
      (beforePockets FloatOps.rat cushionBall).dtPositionOfBalls 1 = ⟨7.2, 1.4⟩ ∧
      |((beforePockets FloatOps.rat cushionBall).dtPositionOfBalls 1).x|
        ≤ Params.Table.width / 2 ∧
      |((beforePockets FloatOps.rat cushionBall).dtPositionOfBalls 1).y|
        ≤ Params.Table.height / 2 := by
  have hh : wallHit (collisionPhase FloatOps.rat (movePhase FloatOps.rat cushionBall)) 1 := by
    decide!
  have h := wall_containment (collisionPhase FloatOps.rat (movePhase FloatOps.rat cushionBall))
    1 hh
  exact ⟨hh, by decide!, h.1, h.2 (Or.inr (by decide!))⟩

/-- Claim C2 fails as stated.  Ball 1 moves from `(7.1, 3.65)`, inside the table, to
`(7.4, 4.05)`; the wall loop finds it beyond the right boundary, sets `x` to `7.2` and,
the tests being an `else if` chain, does not look at `y`: after the wall loop
`|y| = 4.05 > height / 2`. -/
theorem wall_containment_counterexample :
    (movePhase FloatOps.rat cornerBall).dtPositionOfBalls 1 = ⟨7.4, 4.05⟩ ∧
      wallHit (collisionPhase FloatOps.rat (movePhase FloatOps.rat cornerBall)) 1 ∧
      (beforePockets FloatOps.rat cornerBall).dtPositionOfBalls 1 = ⟨7.2, 4.05⟩ ∧
      ¬ |((beforePockets FloatOps.rat cornerBall).dtPositionOfBalls 1).y|
        ≤ Params.Table.height / 2 := by
  refine ⟨by decide!, by decide!, by decide!, by decide!⟩

/-! ## Collision resolution -/

theorem collidePair_of_collides (F : FloatOps) (s : State) (i j : Fin 7)
    (hj : s.proofExisting j = true) (hc : collides F s i j) :
    collidePair F i s j = resolve F s i j := by
  unfold collidePair
  simp [hj, hc]

/-- Claim C9 as the code has it (momentum bookkeeping).  When the collision loop resolves the
pair `i < j`, ball `i` receives ball `j`'s impulse if its own is exactly zero, and otherwise
ball `j` receives ball `i`'s impulse - also when ball `j`'s impulse is not zero; then both
are multiplied by `0.997`.  Both balls end with the same impulse. -/
theorem momentum_bookkeeping (F : FloatOps) (s : State) (i j : Fin 7) (hij : i < j)
    (hj : s.proofExisting j = true) (hc : collides F s i j) :
    (collidePair F i s j).impulses i =
        (if s.impulses i = 0 then s.impulses j else s.impulses i) * 0.997 ∧
      (collidePair F i s j).impulses j =
        (if s.impulses i = 0 then s.impulses j else s.impulses i) * 0.997 := by
  have hne : i ≠ j := ne_of_lt hij
  rw [collidePair_of_collides F s i j hj hc]
  unfold resolve ballsCollisionKoef
  dsimp only
  split_ifs with h0
  · simp [Function.update_noteq hne, Function.update_noteq hne.symm]
  · simp [Function.update_noteq hne, Function.update_noteq hne.symm]

theorem momentum_bookkeeping_witness :
    (collides FloatOps.rat overlap 1 2 ∧ overlap.impulses 1 = 0.4) ∧
      (collidePair FloatOps.rat 1 overlap 2).impulses 1 = 0.4 * 0.997 ∧
      (collidePair FloatOps.rat 1 overlap 2).impulses 2 = 0.4 * 0.997 := by
  have hc : collides FloatOps.rat overlap 1 2 := by decide!
  have h := momentum_bookkeeping FloatOps.rat overlap 1 2 (by decide) (by decide!) hc
  have h1 : overlap.impulses 1 = 0.4 := by decide!
  rw [h1] at h
  have hne : ¬ ((0.4 : ℚ) = 0) := by norm_num
  rw [if_neg hne] at h
  exact ⟨⟨hc, h1⟩, h⟩

/-- Claim C9 fails as stated.  Both impulses are nonzero before the collision of balls 1 and 2
(`0.4` and `0.2`); after it ball 2 has `0.997 * 0.4`, not `0.997 * 0.2`. -/
theorem momentum_bookkeeping_counterexample :
    overlap.proofExisting 1 = true ∧ overlap.proofExisting 2 = true ∧
      collides FloatOps.rat overlap 1 2 ∧
      overlap.impulses 1 = 0.4 ∧ overlap.impulses 2 = 0.2 ∧
      (collisionPhase FloatOps.rat overlap).impulses 2 = 0.997 * 0.4 ∧
      (collisionPhase FloatOps.rat overlap).impulses 2 ≠ 0.997 * overlap.impulses 2 := by
  refine ⟨by decide!, by decide!, by decide!, by decide!, by decide!, by decide!, by decide!⟩

/-- Evaluation of the code at the failing input of claim C7 (collision symmetry).  Balls 1 and
2 collide with centres `0.5` apart and `uN = (0.6, 0.8)`.  The normal components are `0` and
`16/65` before resolution, sum `16/65`; after it they are `36/65` and `0`, sum `36/65`:
ball 1 ends with `36/65` where the exchange would give it the `16/65` of ball 2. -/
theorem collision_symmetry_fails :
    collides FloatOps.rat overlap 1 2 ∧
      unitNormal FloatOps.rat overlap 1 2 = ⟨0.6, 0.8⟩ ∧
      component (unitNormal FloatOps.rat overlap 1 2) overlap 1 = 0 ∧
      component (unitNormal FloatOps.rat overlap 1 2) overlap 2 = 16 / 65 ∧
      component (unitNormal FloatOps.rat overlap 1 2) (collisionPhase FloatOps.rat overlap) 1
        = 36 / 65 ∧
      component (unitNormal FloatOps.rat overlap 1 2) (collisionPhase FloatOps.rat overlap) 2
        = 0 ∧
      component (unitNormal FloatOps.rat overlap 1 2) (collisionPhase FloatOps.rat overlap) 1 +
        component (unitNormal FloatOps.rat overlap 1 2) (collisionPhase FloatOps.rat overlap) 2
        ≠ component (unitNormal FloatOps.rat overlap 1 2) overlap 1 +
          component (unitNormal FloatOps.rat overlap 1 2) overlap 2 := by
  refine ⟨by decide!, by decide!, by decide!, by decide!, by decide!, by decide!, by decide!⟩

theorem clampDt_zero : clampDt 0 = 0 := by
  unfold clampDt
  norm_num

/-- Claim C8 (head-on swap).  Two balls whose centres are exactly `2 * radius` apart, whose
directions lie on the line of centres (both tangential components are 0) and point towards
each other (`vn1 < 0 < vn2`, so `vn2 ≠ vn1`): collision resolution leaves both positions
unchanged, gives ball `i` the normal component ball `j` had and ball `j` the normal component
ball `i` had, and leaves both tangential components 0.  Division is exact division for
nonzero divisors, and `sqrtf` returns the exact distance `2 * radius`. -/
theorem head_on_swap (F : FloatOps) (hF : F.ExactDiv) (s : State) (i j : Fin 7) (hij : i ≠ j)
    (hsq : ((s.dtPositionOfBalls i).x - (s.dtPositionOfBalls j).x) *
          ((s.dtPositionOfBalls i).x - (s.dtPositionOfBalls j).x) +
        ((s.dtPositionOfBalls i).y - (s.dtPositionOfBalls j).y) *
          ((s.dtPositionOfBalls i).y - (s.dtPositionOfBalls j).y) =
      (Params.Ball.radius * 2) * (Params.Ball.radius * 2))
    (hsqrt : F.sqrtf ((Params.Ball.radius * 2) * (Params.Ball.radius * 2)) =
      Params.Ball.radius * 2)
    (ht1 : component (unitTangent F s i j) s i = 0)
    (ht2 : component (unitTangent F s i j) s j = 0)
    (hn1 : component (unitNormal F s i j) s i < 0)
    (hn2 : 0 < component (unitNormal F s i j) s j) :
    collides F s i j ∧
      (resolve F s i j).dtPositionOfBalls i = s.dtPositionOfBalls i ∧
      (resolve F s i j).dtPositionOfBalls j = s.dtPositionOfBalls j ∧
      component (unitNormal F s i j) (resolve F s i j) i =
        component (unitNormal F s i j) s j ∧
      component (unitNormal F s i j) (resolve F s i j) j =
        component (unitNormal F s i j) s i ∧
      component (unitTangent F s i j) (resolve F s i j) i = 0 ∧
      component (unitTangent F s i j) (resolve F s i j) j = 0 := by
  have hr : Params.Ball.radius * 2 ≠ 0 := by unfold Params.Ball.radius; norm_num
  have hcd : centreDistance F s i j = Params.Ball.radius * 2 := by
    unfold centreDistance Vector2.sub
    dsimp only
    rw [hsq, hsqrt, if_neg hr]
  have hne : component (unitNormal F s i j) s j - component (unitNormal F s i j) s i ≠ 0 := by
    linarith
  -- the unit normal has length one
  have hu : (unitNormal F s i j).x * (unitNormal F s i j).x +
      (unitNormal F s i j).y * (unitNormal F s i j).y = 1 := by
    unfold unitNormal Vector2.div Vector2.sub
    dsimp only
    rw [hcd, hF _ _ hr, hF _ _ hr]
    field_simp
    linarith [hsq]
  -- the correction is zero
  have hDt : clampDt (F.divf (Params.Ball.radius * 2 - centreDistance F s i j)
      (component (unitNormal F s i j) s j - component (unitNormal F s i j) s i)) = 0 := by
    rw [hcd, hF _ _ hne]
    simp [clampDt_zero]
  unfold component unitTangent at ht1 ht2 ⊢
  unfold component at hn1 hn2 hDt hne
  -- the second distance and unit normal are the first ones
  have hN2 : F.sqrtf
      (((s.dtPositionOfBalls i).x - (s.dtPositionOfBalls j).x) *
          ((s.dtPositionOfBalls i).x - (s.dtPositionOfBalls j).x) +
        ((s.dtPositionOfBalls i).y - (s.dtPositionOfBalls j).y) *
          ((s.dtPositionOfBalls i).y - (s.dtPositionOfBalls j).y)) = Params.Ball.radius * 2 := by
    rw [hsq, hsqrt]
  have huN : Vector2.div F
      ⟨(s.dtPositionOfBalls i).x - (s.dtPositionOfBalls j).x,
        (s.dtPositionOfBalls i).y - (s.dtPositionOfBalls j).y⟩
      (Params.Ball.radius * 2) = unitNormal F s i j := by
    unfold unitNormal Vector2.sub
    rw [hcd]
  unfold resolve
  simp only [hDt, mul_zero, sub_zero, add_zero, Function.update_same,
    Function.update_noteq hij, Function.update_noteq hij.symm, Vector2.sub, Vector2.add,
    Vector2.mul, hN2, if_neg hr, huN]
  simp only [neg_mul] at ht1 ht2
  refine ⟨le_of_eq hcd, trivial, trivial, ?_, ?_, ?_, ?_⟩
  · linear_combination
      ((unitNormal F s i j).x * (s.dxdyVector j).x +
        (unitNormal F s i j).y * (s.dxdyVector j).y) * hu +
      (-(unitNormal F s i j).x * (unitNormal F s i j).y +
        (unitNormal F s i j).y * (unitNormal F s i j).x) * ht1
  · linear_combination
      ((unitNormal F s i j).x * (s.dxdyVector i).x +
        (unitNormal F s i j).y * (s.dxdyVector i).y) * hu +
      (-(unitNormal F s i j).x * (unitNormal F s i j).y +
        (unitNormal F s i j).y * (unitNormal F s i j).x) * ht2
  · linear_combination
      ((unitNormal F s i j).x * (unitNormal F s i j).x +
        (unitNormal F s i j).y * (unitNormal F s i j).y) * ht1
  · linear_combination
      ((unitNormal F s i j).x * (unitNormal F s i j).x +
        (unitNormal F s i j).y * (unitNormal F s i j).y) * ht2

theorem exactDiv_rat : FloatOps.rat.ExactDiv := fun _ _ _ => rfl

theorem head_on_swap_witness :
    (component (unitNormal FloatOps.rat headOn 1 2) headOn 1 = -1 ∧
      component (unitNormal FloatOps.rat headOn 1 2) headOn 2 = 1) ∧
    (collides FloatOps.rat headOn 1 2 ∧
      (resolve FloatOps.rat headOn 1 2).dtPositionOfBalls 1 = headOn.dtPositionOfBalls 1 ∧
      (resolve FloatOps.rat headOn 1 2).dtPositionOfBalls 2 = headOn.dtPositionOfBalls 2 ∧
      component (unitNormal FloatOps.rat headOn 1 2) (resolve FloatOps.rat headOn 1 2) 1 =
        component (unitNormal FloatOps.rat headOn 1 2) headOn 2 ∧
      component (unitNormal FloatOps.rat headOn 1 2) (resolve FloatOps.rat headOn 1 2) 2 =
        component (unitNormal FloatOps.rat headOn 1 2) headOn 1 ∧
      component (unitTangent FloatOps.rat headOn 1 2) (resolve FloatOps.rat headOn 1 2) 1 = 0 ∧
      component (unitTangent FloatOps.rat headOn 1 2) (resolve FloatOps.rat headOn 1 2) 2 = 0) :=
  ⟨⟨by decide!, by decide!⟩,
    head_on_swap FloatOps.rat exactDiv_rat headOn 1 2 (by decide) (by decide!) (by decide!)
      (by decide!) (by decide!) (by decide!) (by decide!)⟩

/-! ## A ball that meets nothing during the frame -/

theorem collidePair_sameBall_of (F : FloatOps) (s : State) {i j k : Fin 7}
    (h : (decide (k = i ∨ k = j) && (s.proofExisting j && decide (collides F s i j))) = false) :
    SameBall k s (collidePair F i s j) := by
  unfold collidePair
  split_ifs with h1 h2
  · exact SameBall.same
  · have hj : s.proofExisting j = true := by
      cases hb : s.proofExisting j
      · exact absurd hb h1
      · rfl
    have hk : ¬ (k = i ∨ k = j) := by
      intro hk
      simp [hk, hj, h2] at h
    exact resolve_sameBall F s (fun e => hk (Or.inl e)) (fun e => hk (Or.inr e))
  · exact SameBall.same

theorem collidePairT_inv (F : FloatOps) (k i : Fin 7) (s t : State) (p : State × Bool)
    (j : Fin 7) (h : TraceInv k s t p) :
    TraceInv k s (collidePair F i t j) (collidePairT F k i p j) := by
  obtain ⟨h1, h2⟩ := h
  subst h1
  refine ⟨rfl, fun hf => ?_⟩
  unfold collidePairT at hf
  simp only [Bool.or_eq_false_iff] at hf
  exact (h2 hf.1).trans (collidePair_sameBall_of F p.1 hf.2)

theorem foldl_collidePairT_inv (F : FloatOps) (k i : Fin 7) (s : State) :
    ∀ (l : List (Fin 7)) (t : State) (p : State × Bool), TraceInv k s t p →
      TraceInv k s (l.foldl (collidePair F i) t) (l.foldl (collidePairT F k i) p)
  | [], _, _, h => h
  | j :: l, t, p, h => by
    simp only [List.foldl_cons]
    exact foldl_collidePairT_inv F k i s l _ _ (collidePairT_inv F k i s t p j h)

theorem collideBallT_inv (F : FloatOps) (k : Fin 7) (s t : State) (p : State × Bool)
    (i : Fin 7) (h : TraceInv k s t p) :
    TraceInv k s (collideBall F t i) (collideBallT F k p i) := by
  unfold collideBall collideBallT
  rw [h.1]
  split_ifs
  · exact h
  · exact foldl_collidePairT_inv F k i s _ t p h

theorem foldl_collideBallT_inv (F : FloatOps) (k : Fin 7) (s : State) :
    ∀ (l : List (Fin 7)) (t : State) (p : State × Bool), TraceInv k s t p →
      TraceInv k s (l.foldl (collideBall F) t) (l.foldl (collideBallT F k) p)
  | [], _, _, h => h
  | i :: l, t, p, h => by
    simp only [List.foldl_cons]
    exact foldl_collideBallT_inv F k s l _ _ (collideBallT_inv F k s t p i h)

/-- A ball that takes part in no resolved collision leaves the collision loop as it entered
it. -/
theorem collisionPhase_sameBall (F : FloatOps) (s : State) (k : Fin 7)
    (h : inCollision F k s = false) : SameBall k s (collisionPhase F s) :=
  (foldl_collideBallT_inv F k s allBalls s (s, false) ⟨rfl, fun _ => SameBall.same⟩).2 h

theorem wallBall_of_not_hit (s : State) (i : Fin 7) (h : ¬ wallHit s i) : wallBall s i = s := by
  unfold wallHit at h
  unfold wallBall
  by_cases h0 : s.impulses i ≠ 0
  · rw [if_pos h0]
    have hA := not_or.1 (not_and.1 h h0)
    have hB := not_or.1 hA.2
    have hC := not_or.1 hB.2
    dsimp only
    rw [if_neg hA.1, if_neg hB.1, if_neg hC.1, if_neg hC.2]
  · rw [if_neg h0]

theorem wallPhase_sameBall (s : State) (i : Fin 7) (h : ¬ wallHit s i) :
    SameBall i s (wallPhase s) := by
  have h1 := wallPhase_at s i
  rw [wallBall_of_not_hit s i h] at h1
  exact h1

theorem pocketLoop_sameBall (F : FloatOps) {k : Fin 7} :
    ∀ (l : List (Vector2 × Fin 7)) (s : State),
      (∀ p ∈ l, p.2 = k → k ≠ 0 → ¬ inPocket F s p.1 k) →
      (pocketLoop F l s).2 = false → SameBall k s (pocketLoop F l s).1
  | [], _, _, _ => SameBall.same
  | (w, i) :: rest, s, hp, hr => by
    have hp' : ∀ p ∈ rest, p.2 = k → k ≠ 0 → ¬ inPocket F s p.1 k :=
      fun p hm => hp p (List.mem_cons_of_mem _ hm)
    unfold pocketLoop at hr ⊢
    by_cases h1 : s.proofExisting i = false
    · rw [if_pos h1] at hr ⊢
      exact pocketLoop_sameBall F rest s hp' hr
    · rw [if_neg h1] at hr ⊢
      by_cases h2 : inPocket F s w i
      · rw [if_pos h2] at hr ⊢
        by_cases h3 : i = 0
        · rw [if_pos h3] at hr
          exact absurd hr (by simp)
        · rw [if_neg h3] at hr ⊢
          have hki : k ≠ i := by
            intro e
            subst e
            exact hp (w, k) (List.mem_cons_self _ _) rfl h3 h2
          have hc := capture_sameBall s hki
          refine hc.trans (pocketLoop_sameBall F rest _ (fun p hm hk h0 => ?_) hr)
          rw [inPocket_congr F p.1 hc.1]
          exact hp' p hm hk h0
      · rw [if_neg h2] at hr ⊢
        exact pocketLoop_sameBall F rest s hp' hr

theorem mem_pocketChecks_fst {p : Vector2 × Fin 7} (h : p ∈ pocketChecks) :
    p.1 ∈ Params.Table.pocketsPositions := by
  unfold pocketChecks at h
  obtain ⟨w, hw, hm⟩ := List.mem_flatMap.1 h
  obtain ⟨i, _, hi⟩ := List.mem_map.1 hm
  rw [← hi]
  exact hw

/-- The frame leaves alone a ball that meets no ball, no wall and no pocket, unless the frame
ends in the player-capture branch: after `update` the ball is as the "Balls moving" loop
left it.  (The player ball in a pocket is the player-capture branch.) -/
theorem update_sameBall_afterMove (F : FloatOps) (dt : ℚ) (s : State) (k : Fin 7)
    (hm : moving s = true)
    (hc : inCollision F k (afterMove F s) = false)
    (hw : ¬ wallHit (afterCollisions F s) k)
    (hp : k ≠ 0 → ∀ w ∈ Params.Table.pocketsPositions, ¬ inPocket F (atPockets F s) w k)
    (hr : resets F s = false) :
    SameBall k (afterMove F s) (update F dt s) := by
  have hr2 : (pocketPhase F (atPockets F s)).2 = false := by
    unfold resets at hr
    simpa [hm] using hr
  rw [update_of_moving F dt s hm, hr2]
  simp only [Bool.false_eq_true, if_false]
  have h1 : SameBall k (afterMove F s) (afterCollisions F s) :=
    collisionPhase_sameBall F (afterMove F s) k hc
  have h2 : SameBall k (afterCollisions F s) (atPockets F s) :=
    wallPhase_sameBall (afterCollisions F s) k hw
  have h3 := pocketLoop_sameBall F pocketChecks (atPockets F s)
    (fun p hpm _ h0 => hp h0 p.1 (mem_pocketChecks_fst hpm)) hr2
  exact ((h1.trans h2).trans h3).trans (chargeTick_sameBall dt _ k)

/-! ## The "Balls moving" loop, seen from one ball -/

theorem aim_of_ne (F : FloatOps) (s : State) {i : Fin 7} (h : i ≠ 0) : aim F i s = s := by
  unfold aim
  simp [h]

theorem integrate_local (i : Fin 7) (s t : State) (h : SameBall i s t) :
    SameBall i (integrate i s) (integrate i t) := by
  obtain ⟨h1, h2, h3, h4⟩ := h
  unfold integrate SameBall
  dsimp only
  rw [h1, h2, h3]
  split_ifs <;> simp [h1, h2, h3, h4]

theorem moveBall_local (F : FloatOps) {i : Fin 7} (hi : i ≠ 0) (s t : State)
    (h : SameBall i s t) : SameBall i (moveBall F s i) (moveBall F t i) := by
  unfold moveBall
  rw [aim_of_ne F s hi, aim_of_ne F t hi, h.2.2.2]
  split_ifs
  · exact h
  · exact integrate_local i s t h

/-- Slot `i` after the "Balls moving" loop is slot `i` after its own iteration, run in the
state at the start of the loop. -/
theorem movePhase_at (F : FloatOps) (s : State) (i : Fin 7) :
    SameBall i (moveBall F s i) (movePhase F s) := by
  by_cases hi : i = 0
  · subst hi
    unfold movePhase allBalls
    simp only [List.foldl_cons]
    exact foldl_sameBall 0 (moveBall F) [1, 2, 3, 4, 5, 6]
      (fun t a ha => moveBall_sameBall F t (by
        intro e
        subst e
        simp at ha)) _
  · exact foldl_local (moveBall F) i (fun t _ h => moveBall_sameBall F t h)
      (moveBall_local F hi) allBalls allBalls_nodup (mem_allBalls i) s

theorem moveBall_integrates (F : FloatOps) (s : State) (i : Fin 7)
    (ha : s.proofExisting i = true)
    (hx : (s.dxdyVector i).x ≠ 0) (hy : (s.dxdyVector i).y ≠ 0)
    (hI : 0.01 ≤ s.impulses i * 0.995) :
    (moveBall F s i).dtPositionOfBalls i =
        ⟨(s.dtPositionOfBalls i).x + (s.dxdyVector i).x * s.impulses i,
          (s.dtPositionOfBalls i).y + (s.dxdyVector i).y * s.impulses i⟩ ∧
      (moveBall F s i).dxdyVector i = s.dxdyVector i ∧
      (moveBall F s i).impulses i = s.impulses i * 0.995 := by
  have haim : aim F i s = s := by
    unfold aim
    rw [if_neg]
    rintro ⟨_, h, _⟩
    exact hx h
  unfold moveBall
  rw [haim]
  unfold integrate tableBallMovingKoef
  simp only [ha, Bool.true_eq_false, if_false, ne_eq, hx, hy, not_false_eq_true, and_self,
    if_true, not_lt.2 hI, Function.update_same, Vector2.add]

/-- Claim C3 as the code has it (integration step).  For every alive ball `i` whose direction
`d` has both components nonzero and whose impulse `I` satisfies `0.995 * I ≥ 0.01`, that takes
part in no resolved collision, is not found at a wall and is in no pocket, in a frame that
does not end in the player-capture branch: one `update` leaves `position_i = p + I * d`,
`direction_i = d` and `impulse_i = 0.995 * I`, which is strictly less than `I`. -/
theorem integration_step (F : FloatOps) (dt : ℚ) (s : State) (i : Fin 7)
    (ha : s.proofExisting i = true)
    (hx : (s.dxdyVector i).x ≠ 0) (hy : (s.dxdyVector i).y ≠ 0)
    (hI : 0.01 ≤ s.impulses i * 0.995)
    (hc : inCollision F i (afterMove F s) = false)
    (hw : ¬ wallHit (afterCollisions F s) i)
    (hp : ∀ w ∈ Params.Table.pocketsPositions, ¬ inPocket F (atPockets F s) w i)
    (hr : resets F s = false) :
    (update F dt s).dtPositionOfBalls i =
        ⟨(s.dtPositionOfBalls i).x + (s.dxdyVector i).x * s.impulses i,
          (s.dtPositionOfBalls i).y + (s.dxdyVector i).y * s.impulses i⟩ ∧
      (update F dt s).dxdyVector i = s.dxdyVector i ∧
      (update F dt s).impulses i = s.impulses i * 0.995 ∧
      (update F dt s).impulses i < s.impulses i := by
  have hpos : 0 < s.impulses i := by
    by_contra hn
    have := not_lt.1 hn
    norm_num at hI
    linarith
  have hm : moving s = true := (moving_iff s).2 ⟨i, ne_of_gt hpos⟩
  have h1 := update_sameBall_afterMove F dt s i hm hc hw (fun _ => hp) hr
  have h2 : SameBall i (moveBall F { s with flagImpulses := moving s } i) (afterMove F s) :=
    movePhase_at F _ i
  have h3 := moveBall_integrates F { s with flagImpulses := moving s } i ha hx hy hI
  have h := h2.trans h1
  refine ⟨h.1.trans h3.1, h.2.1.trans h3.2.1, h.2.2.1.trans h3.2.2, ?_⟩
  rw [h.2.2.1.trans h3.2.2]
  linarith

theorem integration_step_witness :
    (update FloatOps.rat 1 (rolling ⟨0.6, 0.8⟩ 0.5)).dtPositionOfBalls 1 = ⟨1.3, 1.4⟩ ∧
      (update FloatOps.rat 1 (rolling ⟨0.6, 0.8⟩ 0.5)).impulses 1 = 0.4975 ∧
      (update FloatOps.rat 1 (rolling ⟨0.6, 0.8⟩ 0.5)).impulses 1 <
        (rolling ⟨0.6, 0.8⟩ 0.5).impulses 1 := by
  have h := integration_step FloatOps.rat 1 (rolling ⟨0.6, 0.8⟩ 0.5) 1 (by decide!) (by decide!)
    (by decide!) (by decide!) (by decide!) (by decide!) (by decide!) (by decide!)
  refine ⟨h.1.trans (by decide!), h.2.2.1.trans (by decide!), h.2.2.2⟩

/-- Claim C3 fails as stated.  Ball 1 alone in the middle of the table, direction `(0.6, 0.8)`,
impulse `0.01005 > 0.01`: friction gives `0.00999975 < 0.01`, so the impulse is set to 0, not
to `0.995 * I`.  And the claim's own instance, direction `(1, 0)` with impulse `0.5`: the
integration test `x != 0 && y != 0` is false, the ball is not moved and keeps impulse `0.5`.
In both frames ball 1 takes part in no collision, wall hit or pocket capture. -/
theorem integration_step_counterexample :
    ((rolling ⟨0.6, 0.8⟩ 0.01005).impulses 1 > 0.01 ∧
      inCollision FloatOps.rat 1 (afterMove FloatOps.rat (rolling ⟨0.6, 0.8⟩ 0.01005)) = false ∧
      ¬ wallHit (afterCollisions FloatOps.rat (rolling ⟨0.6, 0.8⟩ 0.01005)) 1 ∧
      (update FloatOps.rat 1 (rolling ⟨0.6, 0.8⟩ 0.01005)).proofExisting 1 = true ∧
      (update FloatOps.rat 1 (rolling ⟨0.6, 0.8⟩ 0.01005)).impulses 1 = 0 ∧
      (update FloatOps.rat 1 (rolling ⟨0.6, 0.8⟩ 0.01005)).impulses 1 ≠
        0.995 * (rolling ⟨0.6, 0.8⟩ 0.01005).impulses 1) ∧
    (inCollision FloatOps.rat 1 (afterMove FloatOps.rat (rolling ⟨1, 0⟩ 0.5)) = false ∧
      ¬ wallHit (afterCollisions FloatOps.rat (rolling ⟨1, 0⟩ 0.5)) 1 ∧
      (update FloatOps.rat 1 (rolling ⟨1, 0⟩ 0.5)).proofExisting 1 = true ∧
      (update FloatOps.rat 1 (rolling ⟨1, 0⟩ 0.5)).dtPositionOfBalls 1 = ⟨1, 1⟩ ∧
      (update FloatOps.rat 1 (rolling ⟨1, 0⟩ 0.5)).impulses 1 = 0.5) := by
  refine ⟨⟨by decide!, by decide!, by decide!, by decide!, by decide!, by decide!⟩,
    ⟨by decide!, by decide!, by decide!, by decide!, by decide!⟩⟩

theorem moveBall_aims (F : FloatOps) (s : State) (ha : s.proofExisting 0 = true)
    (hd : s.dxdyVector 0 = ⟨0, 0⟩) (hI : 0.01 ≤ s.impulses 0 * 0.995) :
    (moveBall F s 0).dxdyVector 0 =
      aimDirection F s s.mouseCoordinates.x s.mouseCoordinates.y := by
  have haim : (aim F 0 s).dxdyVector 0 =
      aimDirection F s s.mouseCoordinates.x s.mouseCoordinates.y := by
    unfold aim aimDirection
    simp [hd]
  have himp : (aim F 0 s).impulses = s.impulses := by
    unfold aim
    dsimp only
    split_ifs <;> rfl
  unfold moveBall
  rw [if_neg (by simp [ha])]
  unfold integrate tableBallMovingKoef
  dsimp only
  rw [himp]
  split_ifs with h1 h2
  · exact absurd h2 (not_lt.2 hI)
  · exact haim
  · exact haim

/-- Claim C4 as the code has it (shot scenario).  In a state in which `flagImpulses` is
`false`, the player ball is alive and at rest (direction `(0, 0)`) and
`shotChargeProgress = 1`, `mouseButtonReleased(x, y)` with a target that differs from the
player ball's position in both coordinates sets `impulse_0` to exactly `0.5` and stages
`(x, y)`; the "Balls moving" loop of the next `update` sets `direction_0` to
`(target - position_0) / |target - position_0|`, and this is the direction after that
`update` when the player ball meets no ball and no wall and the frame does not end in the
player-capture branch. -/
theorem shot_scenario (F : FloatOps) (x y : ℚ) (s : State)
    (hflag : s.flagImpulses = false) (hcp : s.shotChargeProgress = 1)
    (ha : s.proofExisting 0 = true) (hd : s.dxdyVector 0 = ⟨0, 0⟩)
    (hx : (s.dtPositionOfBalls 0).x ≠ x) (hy : (s.dtPositionOfBalls 0).y ≠ y) :
    (mouseButtonReleased x y s).impulses 0 = 0.5 ∧
      (mouseButtonReleased x y s).mouseCoordinates = ⟨x, y⟩ ∧
      (afterMove F (mouseButtonReleased x y s)).dxdyVector 0 = aimDirection F s x y ∧
      ∀ dt, inCollision F 0 (afterMove F (mouseButtonReleased x y s)) = false →
        ¬ wallHit (afterCollisions F (mouseButtonReleased x y s)) 0 →
        resets F (mouseButtonReleased x y s) = false →
        (update F dt (mouseButtonReleased x y s)).dxdyVector 0 = aimDirection F s x y := by
  have hrel : mouseButtonReleased x y s =
      { s with
        impulses := Function.update s.impulses 0 (1 / 2)
        mouseCoordinates := ⟨x, y⟩
        isChargingShot := false
        shotChargeProgress := 0 } := by
    unfold mouseButtonReleased
    simp [hflag, hx, hy, hcp]
  have himp : (mouseButtonReleased x y s).impulses 0 = 0.5 := by
    rw [hrel]
    simp only [Function.update_same]
    norm_num
  have hmv : moving (mouseButtonReleased x y s) = true :=
    (moving_iff _).2 ⟨0, by rw [himp]; norm_num⟩
  have hmove : (afterMove F (mouseButtonReleased x y s)).dxdyVector 0 = aimDirection F s x y := by
    have h1 := (movePhase_at F
      { mouseButtonReleased x y s with flagImpulses := moving (mouseButtonReleased x y s) } 0).2.1
    unfold afterMove
    rw [h1, moveBall_aims F _ (by rw [hrel]; exact ha) (by rw [hrel]; exact hd)
      (by
        show (0.01 : ℚ) ≤ (mouseButtonReleased x y s).impulses 0 * 0.995
        rw [himp]; norm_num)]
    rw [hrel]
    rfl
  refine ⟨himp, by rw [hrel], hmove, fun dt hc hw hr => ?_⟩
  have h := update_sameBall_afterMove F dt (mouseButtonReleased x y s) 0 hmv hc hw
    (fun h0 => absurd rfl h0) hr
  rw [h.2.1, hmove]

theorem shot_scenario_witness :
    (charged.flagImpulses = false ∧ charged.shotChargeProgress = 1) ∧
      (mouseButtonReleased (-0.5) 3 charged).impulses 0 = 0.5 ∧
      (update FloatOps.rat 1 (mouseButtonReleased (-0.5) 3 charged)).dxdyVector 0 =
        ⟨0.8, 0.6⟩ := by
  have h := shot_scenario FloatOps.rat (-0.5) 3 charged (by decide!) (by decide!) (by decide!)
    (by decide!) (by decide!) (by decide!)
  refine ⟨⟨by decide!, by decide!⟩, h.1, ?_⟩
  rw [h.2.2.2 1 (by decide!) (by decide!) (by decide!)]
  decide!

/-- Claim C4 fails as stated.  After `init()` with the shot fully charged, no ball moving, the
player ball at `(-4.5, 0)`: a release at `(3, 0)`, directly to its right, has `y` equal to the
ball's `y`, so the test `x != pos.x && y != pos.y` of line 471 is false; `impulse_0` stays 0
and the next `update` leaves `direction_0` at `(0, 0)`. -/
theorem shot_scenario_counterexample :
    Reachable FloatOps.rat charged ∧
      (∀ i, charged.impulses i = 0) ∧ charged.flagImpulses = false ∧
      charged.shotChargeProgress = 1 ∧
      (charged.dtPositionOfBalls 0).x < 3 ∧ (charged.dtPositionOfBalls 0).y = 0 ∧
      (mouseButtonReleased 3 0 charged).impulses 0 = 0 ∧
      (mouseButtonReleased 3 0 charged).impulses 0 ≠ 0.5 ∧
      (update FloatOps.rat 1 (mouseButtonReleased 3 0 charged)).dxdyVector 0 = ⟨0, 0⟩ ∧
      (update FloatOps.rat 1 (mouseButtonReleased 3 0 charged)).dxdyVector 0 ≠ ⟨1, 0⟩ := by
  refine ⟨?_, by decide!, by decide!, by decide!, by decide!, by decide!, by decide!,
    by decide!, by decide!, by decide!⟩
  exact ReachableFrom.update 1 (ReachableFrom.pressed 0 0 ReachableFrom.start)

/-! ## What `update` does to the shot controller -/

theorem chargeTick_fields (dt : ℚ) (s : State) :
    (chargeTick dt s).dtPositionOfBalls = s.dtPositionOfBalls ∧
      (chargeTick dt s).dxdyVector = s.dxdyVector ∧
      (chargeTick dt s).impulses = s.impulses ∧
      (chargeTick dt s).proofExisting = s.proofExisting ∧
      (chargeTick dt s).mouseCoordinates = s.mouseCoordinates ∧
      (chargeTick dt s).isChargingShot = s.isChargingShot ∧
      (chargeTick dt s).flagImpulses = s.flagImpulses := by
  unfold chargeTick
  split_ifs <;> simp

theorem chargeTick_of_moving (dt : ℚ) (s : State) (h : s.flagImpulses = true) :
    chargeTick dt s = s := by
  unfold chargeTick
  simp [h]

theorem pocketPhase_shot (F : FloatOps) (s : State) :
    (pocketPhase F (atPockets F s)).1.isChargingShot = s.isChargingShot ∧
      (pocketPhase F (atPockets F s)).1.flagImpulses = moving s ∧
      (pocketPhase F (atPockets F s)).1.shotChargeProgress = s.shotChargeProgress :=
  (beforePockets_sameShot F { s with flagImpulses := moving s }).andThen
    (pocketLoop_sameShot F pocketChecks (atPockets F s))

/-- The shot controller after `update`: the charging flag is kept, and the charge advances
exactly in a frame in which it is set and no ball is moving. -/
theorem update_shot (F : FloatOps) (dt : ℚ) (s : State) :
    (update F dt s).isChargingShot = s.isChargingShot ∧
      (update F dt s).shotChargeProgress =
        if s.isChargingShot = true ∧ moving s = false then
          min (s.shotChargeProgress + dt / Params.Shot.chargeTime) 1
        else s.shotChargeProgress := by
  cases hm : moving s
  · rw [update_of_idle F dt s hm]
    unfold chargeTick
    dsimp only
    split_ifs <;> simp_all
  · rw [update_of_moving F dt s hm]
    have h := pocketPhase_shot F s
    rw [hm] at h
    rw [chargeTick_of_moving dt _ h.2.1]
    simp [h.1, h.2.2]

/-- The frame time reaches the charge only: everything else `update` writes is the same for
any two frame times. -/
theorem update_dt (F : FloatOps) (dt1 dt2 : ℚ) (s : State) :
    (update F dt1 s).dtPositionOfBalls = (update F dt2 s).dtPositionOfBalls ∧
      (update F dt1 s).dxdyVector = (update F dt2 s).dxdyVector ∧
      (update F dt1 s).impulses = (update F dt2 s).impulses ∧
      (update F dt1 s).proofExisting = (update F dt2 s).proofExisting ∧
      (update F dt1 s).mouseCoordinates = (update F dt2 s).mouseCoordinates ∧
      (update F dt1 s).isChargingShot = (update F dt2 s).isChargingShot ∧
      (update F dt1 s).flagImpulses = (update F dt2 s).flagImpulses := by
  cases hm : moving s
  · rw [update_of_idle F dt1 s hm, update_of_idle F dt2 s hm]
    have h1 := chargeTick_fields dt1 { s with flagImpulses := false }
    have h2 := chargeTick_fields dt2 { s with flagImpulses := false }
    exact ⟨h1.1.trans h2.1.symm, h1.2.1.trans h2.2.1.symm, h1.2.2.1.trans h2.2.2.1.symm,
      h1.2.2.2.1.trans h2.2.2.2.1.symm, h1.2.2.2.2.1.trans h2.2.2.2.2.1.symm,
      h1.2.2.2.2.2.1.trans h2.2.2.2.2.2.1.symm, h1.2.2.2.2.2.2.trans h2.2.2.2.2.2.2.symm⟩
  · rw [update_of_moving F dt1 s hm, update_of_moving F dt2 s hm]
    have h := pocketPhase_shot F s
    rw [hm] at h
    rw [chargeTick_of_moving dt1 _ h.2.1, chargeTick_of_moving dt2 _ h.2.1]
    exact ⟨rfl, rfl, rfl, rfl, rfl, rfl, rfl⟩

/-- Claim C20 (timestep independence of the physics).  For every state and every two
timesteps `dt1` and `dt2`, `update(dt1)` and `update(dt2)` produce the same positions,
directions, impulses, alive flags and staged mouse coordinates for all seven balls (and the
same `isChargingShot` and `flagImpulses`); `dt` reaches `shotChargeProgress` only. -/
theorem timestep_independence (F : FloatOps) (dt1 dt2 : ℚ) (s : State) :
    (update F dt1 s).dtPositionOfBalls = (update F dt2 s).dtPositionOfBalls ∧
      (update F dt1 s).dxdyVector = (update F dt2 s).dxdyVector ∧
      (update F dt1 s).impulses = (update F dt2 s).impulses ∧
      (update F dt1 s).proofExisting = (update F dt2 s).proofExisting ∧
      (update F dt1 s).mouseCoordinates = (update F dt2 s).mouseCoordinates ∧
      (update F dt1 s).isChargingShot = (update F dt2 s).isChargingShot ∧
      (update F dt1 s).flagImpulses = (update F dt2 s).flagImpulses :=
  update_dt F dt1 dt2 s

/-- Claim C13 (idle frame).  For every state in which all seven impulses are 0 and every
`dt`, `update(dt)` leaves every ball's position, direction, impulse and alive flag and the
staged mouse coordinates unchanged; it sets `shotChargeProgress` to
`min(shotChargeProgress + dt / 1, 1)` when `isChargingShot` is set and leaves it unchanged
when it is not. -/
theorem idle_frame (F : FloatOps) (dt : ℚ) (s : State) (h : ∀ i, s.impulses i = 0) :
    (update F dt s).dtPositionOfBalls = s.dtPositionOfBalls ∧
      (update F dt s).dxdyVector = s.dxdyVector ∧
      (update F dt s).impulses = s.impulses ∧
      (update F dt s).proofExisting = s.proofExisting ∧
      (update F dt s).mouseCoordinates = s.mouseCoordinates ∧
      (s.isChargingShot = true →
        (update F dt s).shotChargeProgress = min (s.shotChargeProgress + dt / 1) 1) ∧
      (s.isChargingShot = false →
        (update F dt s).shotChargeProgress = s.shotChargeProgress) := by
  have hm : moving s = false := by
    cases hb : moving s
    · rfl
    · obtain ⟨i, hi⟩ := (moving_iff s).1 hb
      exact absurd (h i) hi
  have hs := (update_shot F dt s).2
  rw [update_of_idle F dt s hm] at hs ⊢
  have hf := chargeTick_fields dt { s with flagImpulses := false }
  refine ⟨hf.1, hf.2.1, hf.2.2.1, hf.2.2.2.1, hf.2.2.2.2.1, fun hc => ?_, fun hc => ?_⟩
  · rw [hs]
    simp [hc, hm, Params.Shot.chargeTime]
  · rw [hs]
    simp [hc]

theorem idle_frame_witness :
    (∀ i, (mouseButtonPressed 0 0 initial).impulses i = 0) ∧
      (update FloatOps.rat (1 / 4) (mouseButtonPressed 0 0 initial)).dtPositionOfBalls =
        (mouseButtonPressed 0 0 initial).dtPositionOfBalls ∧
      (update FloatOps.rat (1 / 4) (mouseButtonPressed 0 0 initial)).shotChargeProgress =
        1 / 4 := by
  have h0 : ∀ i, (mouseButtonPressed 0 0 initial).impulses i = 0 := by decide!
  have h := idle_frame FloatOps.rat (1 / 4) (mouseButtonPressed 0 0 initial) h0
  refine ⟨h0, h.1, ?_⟩
  rw [h.2.2.2.2.2.1 rfl]
  decide!

/-- Claim C12 (charge range).  Starting from the globals as initialised
(`shotChargeProgress = 0`), after any sequence of `init`, `update(dt)` with `dt ≥ 0`,
`mouseButtonPressed` and `mouseButtonReleased` calls, `0 ≤ shotChargeProgress ≤ 1`. -/
theorem charge_range (F : FloatOps) (s : State) (h : Played F s) :
    0 ≤ s.shotChargeProgress ∧ s.shotChargeProgress ≤ 1 := by
  induction h with
  | start => exact ⟨le_refl _, zero_le_one⟩
  | init _ ih => exact ih
  | @update dt hdt t _ ih =>
    rw [(update_shot F dt t).2]
    split_ifs
    · refine ⟨le_min ?_ zero_le_one, min_le_right _ _⟩
      have : 0 ≤ dt / Params.Shot.chargeTime := by
        unfold Params.Shot.chargeTime
        simpa using hdt
      linarith [ih.1]
    · exact ih
  | pressed x y _ ih => exact ih
  | released x y _ ih =>
    unfold mouseButtonReleased
    exact ⟨le_refl _, zero_le_one⟩

theorem played_charged : Played FloatOps.rat charged :=
  Played.update 1 zero_le_one (Played.pressed 0 0 (Played.init Played.start))

theorem charge_range_witness :
    charged.shotChargeProgress = 1 ∧
      (0 ≤ charged.shotChargeProgress ∧ charged.shotChargeProgress ≤ 1) :=
  ⟨by decide!, charge_range FloatOps.rat charged
    (Played.update 1 zero_le_one (Played.pressed 0 0 (Played.init Played.start)))⟩

/-! ## The player-capture branch and the shot controller -/

theorem pocketLoop_reset (F : FloatOps) :
    ∀ (l : List (Vector2 × Fin 7)) (s : State), (pocketLoop F l s).2 = true →
      ∃ t, (pocketLoop F l s).1 = init (deinit t)
  | [], s, h => by simp [pocketLoop] at h
  | (w, i) :: rest, s, h => by
    unfold pocketLoop at h ⊢
    split_ifs at h ⊢
    · exact pocketLoop_reset F rest s h
    · exact ⟨s, rfl⟩
    · exact pocketLoop_reset F rest _ h
    · exact pocketLoop_reset F rest s h

theorem update_of_resets (F : FloatOps) (dt : ℚ) (s : State) (h : resets F s = true) :
    update F dt s = (pocketPhase F (atPockets F s)).1 ∧
      ∃ t, update F dt s = init (deinit t) := by
  unfold resets at h
  rw [Bool.and_eq_true] at h
  have hu : update F dt s = (pocketPhase F (atPockets F s)).1 := by
    rw [update_of_moving F dt s h.1, if_pos h.2]
  refine ⟨hu, ?_⟩
  obtain ⟨t, ht⟩ := pocketLoop_reset F pocketChecks (atPockets F s) h.2
  exact ⟨t, hu.trans ht⟩

/-- In every state reachable from `init()` the charge is 0 while a ball is moving: a shot is
released with the charge reset, and the charge does not advance while the flag is set. -/
theorem reachable_moving_charge (F : FloatOps) (s : State) (h : Reachable F s) :
    moving s = true → s.shotChargeProgress = 0 := by
  induction h with
  | start =>
    intro hm
    rfl
  | @update dt t _ ih =>
    intro _
    rw [(update_shot F dt t).2]
    cases hm : moving t
    · have hi : ∀ i, t.impulses i = 0 := by
        intro i
        by_contra hne
        have := (moving_iff t).2 ⟨i, hne⟩
        rw [hm] at this
        exact Bool.noConfusion this
      have himp : (update F dt t).impulses = t.impulses := by
        rw [update_of_idle F dt t hm]
        exact (chargeTick_fields dt _).2.2.1
      have hm2 : moving (update F dt t) = false := by
        cases hb : moving (update F dt t)
        · rfl
        · obtain ⟨i, hne⟩ := (moving_iff _).1 hb
          rw [himp] at hne
          exact absurd (hi i) hne
      rename_i hmov
      rw [hm2] at hmov
      exact Bool.noConfusion hmov
    · simp [ih hm]
  | pressed x y _ ih => exact ih
  | released x y _ ih =>
    intro _
    unfold mouseButtonReleased
    rfl

/-- Claim C14 as the code has it (reset and the shot controller).  After the reset that
`update` performs on player-ball capture (`deinit` followed by `init`) the staged mouse
coordinates are cleared to `(0, 0)`; `isChargingShot` and `shotChargeProgress` are what they
were before the frame, since `init` and `deinit` do not write them.  In a state reachable
from `init()` the charge is 0 then, because it is 0 whenever a ball is moving. -/
theorem reset_shot_controller (F : FloatOps) (dt : ℚ) (s : State) (h : resets F s = true) :
    (update F dt s).mouseCoordinates = ⟨0, 0⟩ ∧
      (update F dt s).isChargingShot = s.isChargingShot ∧
      (update F dt s).shotChargeProgress = s.shotChargeProgress ∧
      (Reachable F s → (update F dt s).shotChargeProgress = 0) := by
  obtain ⟨hu, t, ht⟩ := update_of_resets F dt s h
  have hs := pocketPhase_shot F s
  rw [← hu] at hs
  have hm : moving s = true := by
    unfold resets at h
    rw [Bool.and_eq_true] at h
    exact h.1
  refine ⟨by rw [ht]; rfl, hs.1, hs.2.2, fun hr => ?_⟩
  rw [hs.2.2]
  exact reachable_moving_charge F s hr hm

theorem reset_shot_controller_witness :
    resets FloatOps.rat cornerRunCharging = true ∧
      (update FloatOps.rat 1 cornerRunCharging).mouseCoordinates = ⟨0, 0⟩ ∧
      (update FloatOps.rat 1 cornerRunCharging).isChargingShot = true ∧
      (update FloatOps.rat 1 cornerRunCharging).shotChargeProgress = 0.5 := by
  have hr : resets FloatOps.rat cornerRunCharging = true := by decide!
  have h := reset_shot_controller FloatOps.rat 1 cornerRunCharging hr
  exact ⟨hr, h.1, h.2.1, h.2.2.1⟩

/-- Claim C14 fails as stated.  The player ball rolls into the top right pocket while the
button is held and the shot is half charged: `update` takes the player-capture branch, all
seven balls are back at their start positions, and `isChargingShot` is still `true` and
`shotChargeProgress` still `0.5`. -/
theorem reset_shot_controller_counterexample :
    cornerRunCharging.isChargingShot = true ∧ cornerRunCharging.shotChargeProgress = 0.5 ∧
      resets FloatOps.rat cornerRunCharging = true ∧
      (update FloatOps.rat 1 cornerRunCharging).dtPositionOfBalls 0 =
        Params.Table.ballsPositions 0 ∧
      (update FloatOps.rat 1 cornerRunCharging).isChargingShot = true ∧
      (update FloatOps.rat 1 cornerRunCharging).shotChargeProgress = 0.5 := by
  refine ⟨by decide!, by decide!, by decide!, by decide!, by decide!, by decide!⟩

/-! ## The wall loop, case by case -/

/-- Claim C16 (wall reflection step).  For every ball with nonzero impulse the wall loop
applies the first test that matches in the order right, left, top, bottom: the matching
coordinate is set to the boundary value, the same direction component is negated, the impulse
is multiplied by `0.89` once, the other coordinate and direction component and the alive flag
are unchanged; a ball with zero impulse, or matching no test, is unchanged. -/
theorem wall_reflection_step (s : State) (i : Fin 7) :
    (s.impulses i ≠ 0 →
        (s.dtPositionOfBalls i).x + Params.Ball.radius ≥ Params.Table.width / 2 →
        (wallPhase s).dtPositionOfBalls i =
            ⟨Params.Table.width / 2 - Params.Ball.radius, (s.dtPositionOfBalls i).y⟩ ∧
          (wallPhase s).dxdyVector i = ⟨-(s.dxdyVector i).x, (s.dxdyVector i).y⟩ ∧
          (wallPhase s).impulses i = s.impulses i * 0.89 ∧
          (wallPhase s).proofExisting i = s.proofExisting i) ∧
      (s.impulses i ≠ 0 →
        ¬ (s.dtPositionOfBalls i).x + Params.Ball.radius ≥ Params.Table.width / 2 →
        (s.dtPositionOfBalls i).x - Params.Ball.radius ≤ -Params.Table.width / 2 →
        (wallPhase s).dtPositionOfBalls i =
            ⟨-(Params.Table.width / 2) + Params.Ball.radius, (s.dtPositionOfBalls i).y⟩ ∧
          (wallPhase s).dxdyVector i = ⟨-(s.dxdyVector i).x, (s.dxdyVector i).y⟩ ∧
          (wallPhase s).impulses i = s.impulses i * 0.89 ∧
          (wallPhase s).proofExisting i = s.proofExisting i) ∧
      (s.impulses i ≠ 0 →
        ¬ (s.dtPositionOfBalls i).x + Params.Ball.radius ≥ Params.Table.width / 2 →
        ¬ (s.dtPositionOfBalls i).x - Params.Ball.radius ≤ -Params.Table.width / 2 →
        (s.dtPositionOfBalls i).y + Params.Ball.radius ≥ Params.Table.height / 2 →
        (wallPhase s).dtPositionOfBalls i =
            ⟨(s.dtPositionOfBalls i).x, Params.Table.height / 2 - Params.Ball.radius⟩ ∧
          (wallPhase s).dxdyVector i = ⟨(s.dxdyVector i).x, -(s.dxdyVector i).y⟩ ∧
          (wallPhase s).impulses i = s.impulses i * 0.89 ∧
          (wallPhase s).proofExisting i = s.proofExisting i) ∧
      (s.impulses i ≠ 0 →
        ¬ (s.dtPositionOfBalls i).x + Params.Ball.radius ≥ Params.Table.width / 2 →
        ¬ (s.dtPositionOfBalls i).x - Params.Ball.radius ≤ -Params.Table.width / 2 →
        ¬ (s.dtPositionOfBalls i).y + Params.Ball.radius ≥ Params.Table.height / 2 →
        (s.dtPositionOfBalls i).y - Params.Ball.radius ≤ -Params.Table.height / 2 →
        (wallPhase s).dtPositionOfBalls i =
            ⟨(s.dtPositionOfBalls i).x, -(Params.Table.height / 2) + Params.Ball.radius⟩ ∧
          (wallPhase s).dxdyVector i = ⟨(s.dxdyVector i).x, -(s.dxdyVector i).y⟩ ∧
          (wallPhase s).impulses i = s.impulses i * 0.89 ∧
          (wallPhase s).proofExisting i = s.proofExisting i) ∧
      (¬ wallHit s i → SameBall i s (wallPhase s)) := by
  have hat := wallPhase_at s i
  refine ⟨fun h0 h1 => ?_, fun h0 h1 h2 => ?_, fun h0 h1 h2 h3 => ?_,
    fun h0 h1 h2 h3 h4 => ?_, fun h => wallPhase_sameBall s i h⟩
  · rw [hat.1, hat.2.1, hat.2.2.1, hat.2.2.2]
    unfold wallBall tableEdgeKoef
    simp [h0, h1]
  · rw [hat.1, hat.2.1, hat.2.2.1, hat.2.2.2]
    unfold wallBall tableEdgeKoef
    simp only [ne_eq, h0, not_false_eq_true, if_true, if_neg h1, if_pos h2,
      Function.update_same]
    simp
  · rw [hat.1, hat.2.1, hat.2.2.1, hat.2.2.2]
    unfold wallBall tableEdgeKoef
    simp only [ne_eq, h0, not_false_eq_true, if_true, if_neg h1, if_neg h2, if_pos h3,
      Function.update_same]
    simp
  · rw [hat.1, hat.2.1, hat.2.2.1, hat.2.2.2]
    unfold wallBall tableEdgeKoef
    simp only [ne_eq, h0, not_false_eq_true, if_true, if_neg h1, if_neg h2, if_neg h3,
      if_pos h4, Function.update_same]
    simp

theorem wall_reflection_step_witness :
    ((collisionPhase FloatOps.rat (movePhase FloatOps.rat cushionBall)).dtPositionOfBalls 1 =
        ⟨7.4, 1.4⟩ ∧
      (collisionPhase FloatOps.rat (movePhase FloatOps.rat cushionBall)).dxdyVector 1 =
        ⟨0.6, 0.8⟩) ∧
    (beforePockets FloatOps.rat cushionBall).dtPositionOfBalls 1 = ⟨7.2, 1.4⟩ ∧
      (beforePockets FloatOps.rat cushionBall).dxdyVector 1 = ⟨-0.6, 0.8⟩ ∧
      (beforePockets FloatOps.rat cushionBall).impulses 1 = 0.4975 * 0.89 := by
  have h := (wall_reflection_step
    (collisionPhase FloatOps.rat (movePhase FloatOps.rat cushionBall)) 1).1
    (by decide!) (by decide!)
  refine ⟨⟨by decide!, by decide!⟩, ?_, ?_, ?_⟩
  · exact h.1.trans (by decide!)
  · exact h.2.1.trans (by decide!)
  · exact h.2.2.1.trans (by decide!)

/-! ## The pocket loop, seen from a ball other than the player ball -/

theorem capture_cleared (s : State) (i : Fin 7) :
    (capture s i).proofExisting i = false ∧ Cleared i (capture s i) := by
  unfold capture Cleared
  simp

/-- A ball other than the player ball that is alive and in a pocket the loop still has to
visit ends pocketed and cleared, unless the loop ends in the player-capture branch. -/
theorem pocketLoop_captures (F : FloatOps) (w : Vector2) {k : Fin 7} (hk : k ≠ 0) :
    ∀ (l : List (Vector2 × Fin 7)) (s : State), (w, k) ∈ l →
      s.proofExisting k = true → inPocket F s w k → (pocketLoop F l s).2 = false →
      (pocketLoop F l s).1.proofExisting k = false ∧ Cleared k (pocketLoop F l s).1
  | [], _, hm, _, _, _ => absurd hm (List.not_mem_nil _)
  | (v, i) :: rest, s, hm, ha, hin, hr => by
    unfold pocketLoop at hr ⊢
    by_cases h1 : s.proofExisting i = false
    · rw [if_pos h1] at hr ⊢
      have hne : (w, k) ≠ (v, i) := by
        intro e
        have e2 : k = i := congrArg Prod.snd e
        rw [← e2, ha] at h1
        exact Bool.noConfusion h1
      exact pocketLoop_captures F w hk rest s ((List.mem_cons.1 hm).resolve_left hne) ha hin hr
    · rw [if_neg h1] at hr ⊢
      by_cases h2 : inPocket F s v i
      · rw [if_pos h2] at hr ⊢
        by_cases h3 : i = 0
        · rw [if_pos h3] at hr
          exact absurd hr (by simp)
        · rw [if_neg h3] at hr ⊢
          by_cases hki : k = i
          · subst hki
            have hc := capture_cleared s k
            have hsb := pocketLoop_sameBall_dead F rest (capture s k) hc.1 hr
            exact ⟨hsb.2.2.2.trans hc.1, Cleared.of_sameBall hsb hc.2⟩
          · have hne : (w, k) ≠ (v, i) := fun e => hki (congrArg Prod.snd e)
            have hc := capture_sameBall s hki
            exact pocketLoop_captures F w hk rest _ ((List.mem_cons.1 hm).resolve_left hne)
              (hc.2.2.2.trans ha) ((inPocket_congr F w hc.1).2 hin) hr
      · rw [if_neg h2] at hr ⊢
        have hne : (w, k) ≠ (v, i) := by
          intro e
          have e1 : w = v := congrArg Prod.fst e
          have e2 : k = i := congrArg Prod.snd e
          exact h2 (e1 ▸ e2 ▸ hin)
        exact pocketLoop_captures F w hk rest s ((List.mem_cons.1 hm).resolve_left hne) ha hin hr

/-- Claim C17 (pocket capture of a ball other than the player ball).  In a frame in which
some ball is moving and the player-capture branch is not taken, a ball `i ≥ 1` that is alive
at the start of the pocket loops is alive after `update` if and only if its position after the
wall loop is at distance `≥ radius + pocketRadius / 1.5` from every pocket centre; a ball that
is captured ends with alive flag `false`, impulse 0, position `(0, 0)` and direction `(0, 0)`,
and a ball that is not captured keeps the position, direction and impulse it had after the
wall loop. -/
theorem pocket_capture (F : FloatOps) (dt : ℚ) (s : State) (i : Fin 7)
    (hm : moving s = true) (hr : resets F s = false) (hi : i ≠ 0)
    (ha : (atPockets F s).proofExisting i = true) :
    ((update F dt s).proofExisting i = true ↔
        ∀ w ∈ Params.Table.pocketsPositions, ¬ inPocket F (atPockets F s) w i) ∧
      ((update F dt s).proofExisting i = false → Cleared i (update F dt s)) ∧
      ((update F dt s).proofExisting i = true → SameBall i (atPockets F s) (update F dt s)) := by
  have hr2 : (pocketPhase F (atPockets F s)).2 = false := by
    unfold resets at hr
    simpa [hm] using hr
  have hu : update F dt s = chargeTick dt (pocketPhase F (atPockets F s)).1 := by
    rw [update_of_moving F dt s hm, hr2]
    simp
  have hct := chargeTick_sameBall dt (pocketPhase F (atPockets F s)).1 i
  -- not in any pocket: the loop leaves the ball alone
  have hfree : (∀ w ∈ Params.Table.pocketsPositions, ¬ inPocket F (atPockets F s) w i) →
      SameBall i (atPockets F s) (update F dt s) := by
    intro hp
    rw [hu]
    exact (pocketLoop_sameBall F pocketChecks (atPockets F s)
      (fun p hpm _ _ => hp p.1 (mem_pocketChecks_fst hpm)) hr2).trans hct
  -- in some pocket: the loop captures the ball
  have hcap : (¬ ∀ w ∈ Params.Table.pocketsPositions, ¬ inPocket F (atPockets F s) w i) →
      (update F dt s).proofExisting i = false ∧ Cleared i (update F dt s) := by
    intro hp
    push_neg at hp
    obtain ⟨w, hw, hin⟩ := hp
    have h := pocketLoop_captures F w hi pocketChecks (atPockets F s) (mem_pocketChecks hw i)
      ha hin hr2
    rw [hu]
    exact ⟨hct.2.2.2.trans h.1, Cleared.of_sameBall hct h.2⟩
  have hiff : (update F dt s).proofExisting i = true ↔
      ∀ w ∈ Params.Table.pocketsPositions, ¬ inPocket F (atPockets F s) w i := by
    constructor
    · intro hal
      by_contra hp
      rw [(hcap hp).1] at hal
      exact Bool.noConfusion hal
    · intro hp
      exact (hfree hp).2.2.2.trans ha
  refine ⟨hiff, fun hd => ?_, fun hal => hfree (hiff.1 hal)⟩
  by_cases hp : ∀ w ∈ Params.Table.pocketsPositions, ¬ inPocket F (atPockets F s) w i
  · rw [hiff.2 hp] at hd
    exact Bool.noConfusion hd
  · exact (hcap hp).2

theorem pocket_capture_witness :
    (inPocket FloatOps.rat (atPockets FloatOps.rat cornerBall) ⟨7.5, 4⟩ 1 ∧
      (update FloatOps.rat 1 cornerBall).proofExisting 1 = false) ∧
    Cleared 1 (update FloatOps.rat 1 cornerBall) ∧
    ((update FloatOps.rat 1 cushionBall).proofExisting 1 = true ∧
      SameBall 1 (atPockets FloatOps.rat cushionBall) (update FloatOps.rat 1 cushionBall)) := by
  have h := pocket_capture FloatOps.rat 1 cornerBall 1 (by decide!) (by decide!) (by decide)
    (by decide!)
  have hd : (update FloatOps.rat 1 cornerBall).proofExisting 1 = false := by decide!
  have h2 := pocket_capture FloatOps.rat 1 cushionBall 1 (by decide!) (by decide!) (by decide)
    (by decide!)
  have ha : (update FloatOps.rat 1 cushionBall).proofExisting 1 = true := by decide!
  exact ⟨⟨by decide!, hd⟩, h.2.1 hd, ha, h2.2.2 ha⟩

/-! ## Aim resolution without a staged target -/

theorem aim_player (F : FloatOps) (s : State) (hd : s.dxdyVector 0 = ⟨0, 0⟩) :
    (aim F 0 s).dxdyVector 0 = aimDirection F s s.mouseCoordinates.x s.mouseCoordinates.y ∧
      (aim F 0 s).mouseCoordinates = ⟨0, 0⟩ ∧
      (aim F 0 s).impulses = s.impulses ∧
      (aim F 0 s).proofExisting = s.proofExisting := by
  unfold aim aimDirection
  simp [hd]

theorem moveBall_aim_snap (F : FloatOps) (s : State) (ha : s.proofExisting 0 = true)
    (hd : s.dxdyVector 0 = ⟨0, 0⟩)
    (hx : (aimDirection F s s.mouseCoordinates.x s.mouseCoordinates.y).x ≠ 0)
    (hy : (aimDirection F s s.mouseCoordinates.x s.mouseCoordinates.y).y ≠ 0)
    (hI : s.impulses 0 * 0.995 < 0.01) :
    (moveBall F s 0).dxdyVector 0 = ⟨0, 0⟩ ∧ (moveBall F s 0).impulses 0 = 0 := by
  obtain ⟨h1, _, h3, _⟩ := aim_player F s hd
  unfold moveBall
  rw [if_neg (by simp [ha])]
  unfold integrate tableBallMovingKoef
  dsimp only
  rw [h1, h3]
  simp [hx, hy, hI]

/-- Claim C18 as the code has it (aim resolution without a staged target).  For every state
in which the player ball is alive with zero direction and `mouseCoordinates` holds its
cleared value `(0, 0)`, the aim step computes for the player ball the direction from its
position to `(0, 0)`, divided by its length: the code has no test for a staged target.  When
both components of that direction are nonzero, the integration step that follows sets
`direction_0` back to `(0, 0)` if `0.995 * impulse_0 < 0.01` (the rest snap), and otherwise
leaves `direction_0` at the computed direction. -/
theorem aim_without_target (F : FloatOps) (s : State)
    (ha : s.proofExisting 0 = true) (hd : s.dxdyVector 0 = ⟨0, 0⟩)
    (hmouse : s.mouseCoordinates = ⟨0, 0⟩) :
    (aim F 0 s).dxdyVector 0 = aimDirection F s 0 0 ∧
      ((aimDirection F s 0 0).x ≠ 0 → (aimDirection F s 0 0).y ≠ 0 →
        s.impulses 0 * 0.995 < 0.01 →
        (afterMove F s).dxdyVector 0 = ⟨0, 0⟩ ∧ (afterMove F s).impulses 0 = 0) ∧
      ((aimDirection F s 0 0).x ≠ 0 → (aimDirection F s 0 0).y ≠ 0 →
        0.01 ≤ s.impulses 0 * 0.995 →
        (afterMove F s).dxdyVector 0 = aimDirection F s 0 0) := by
  have hat := movePhase_at F { s with flagImpulses := moving s } 0
  have hm0 : s.mouseCoordinates.x = 0 ∧ s.mouseCoordinates.y = 0 := by
    rw [hmouse]
    exact ⟨rfl, rfl⟩
  have e : aimDirection F s s.mouseCoordinates.x s.mouseCoordinates.y = aimDirection F s 0 0 := by
    rw [hm0.1, hm0.2]
  refine ⟨?_, fun hx hy hI => ?_, fun _ _ hI => ?_⟩
  · rw [(aim_player F s hd).1, e]
  · have h := moveBall_aim_snap F { s with flagImpulses := moving s } ha hd
      (by rw [← e] at hx; exact hx) (by rw [← e] at hy; exact hy) hI
    unfold afterMove
    exact ⟨hat.2.1.trans h.1, hat.2.2.1.trans h.2⟩
  · have h := moveBall_aims F { s with flagImpulses := moving s } ha hd hI
    unfold afterMove
    rw [hat.2.1, h]
    exact e

theorem aim_without_target_witness :
    (aim FloatOps.rat 0 (unaimed 0)).dxdyVector 0 = ⟨-0.6, -0.8⟩ ∧
      (afterMove FloatOps.rat (unaimed 0)).dxdyVector 0 = ⟨0, 0⟩ ∧
      (afterMove FloatOps.rat (unaimed 0.3)).dxdyVector 0 = ⟨-0.6, -0.8⟩ := by
  have h := aim_without_target FloatOps.rat (unaimed 0) (by decide!) (by decide!) (by decide!)
  have h2 := aim_without_target FloatOps.rat (unaimed 0.3) (by decide!) (by decide!)
    (by decide!)
  refine ⟨h.1.trans (by decide!), (h.2.1 (by decide!) (by decide!) (by decide!)).1, ?_⟩
  exact (h2.2.2 (by decide!) (by decide!) (by decide!)).trans (by decide!)

/-- Claim C18 fails as stated.  In both states some impulse is nonzero, the player ball is
alive with direction `(0, 0)` and `mouseCoordinates` is `(0, 0)`.  In the first the player
ball, at `(1.5, 2)` with impulse `0.3`, has direction `(-0.6, -0.8)` after the "Balls moving"
loop (aim resolution and integration).  In the second the player ball rests at its start
position `(-4.5, 0)` while ball 1 rolls: after the loop its direction is `(1, 0)`. -/
theorem aim_without_target_counterexample :
    (moving (unaimed 0.3) = true ∧ (unaimed 0.3).proofExisting 0 = true ∧
      (unaimed 0.3).dxdyVector 0 = ⟨0, 0⟩ ∧ (unaimed 0.3).mouseCoordinates = ⟨0, 0⟩ ∧
      (afterMove FloatOps.rat (unaimed 0.3)).dxdyVector 0 = ⟨-0.6, -0.8⟩ ∧
      (update FloatOps.rat 1 (unaimed 0.3)).dxdyVector 0 = ⟨-0.6, -0.8⟩) ∧
    (moving breakOff = true ∧ breakOff.proofExisting 0 = true ∧
      breakOff.dxdyVector 0 = ⟨0, 0⟩ ∧ breakOff.mouseCoordinates = ⟨0, 0⟩ ∧
      breakOff.impulses 0 = 0 ∧
      (afterMove FloatOps.rat breakOff).dxdyVector 0 = ⟨1, 0⟩ ∧
      (update FloatOps.rat 1 breakOff).dxdyVector 0 = ⟨1, 0⟩) := by
  refine ⟨⟨by decide!, by decide!, by decide!, by decide!, by decide!, by decide!⟩,
    ⟨by decide!, by decide!, by decide!, by decide!, by decide!, by decide!, by decide!⟩⟩

/-! ## A ball whose direction has a zero component -/

theorem state_eq {s t : State} (h1 : t.isChargingShot = s.isChargingShot)
    (h2 : t.flagImpulses = s.flagImpulses) (h3 : t.shotChargeProgress = s.shotChargeProgress)
    (h4 : t.mouseCoordinates = s.mouseCoordinates)
    (h5 : t.dtPositionOfBalls = s.dtPositionOfBalls) (h6 : t.impulses = s.impulses)
    (h7 : t.proofExisting = s.proofExisting) (h8 : t.dxdyVector = s.dxdyVector) : t = s := by
  cases s
  cases t
  simp_all

theorem update_stuckBall (dt : ℚ) : update FloatOps.rat dt stuckBall = stuckBall := by
  have hdt := update_dt FloatOps.rat dt 1 stuckBall
  have hs := update_shot FloatOps.rat dt stuckBall
  have hc : stuckBall.isChargingShot = false := rfl
  refine state_eq (hdt.2.2.2.2.2.1.trans (by decide!)) (hdt.2.2.2.2.2.2.trans (by decide!)) ?_
    (hdt.2.2.2.2.1.trans (by decide!)) (hdt.1.trans ?_) (hdt.2.2.1.trans ?_)
    (hdt.2.2.2.1.trans ?_) (hdt.2.1.trans ?_)
  · rw [hs.2, hc]
    simp
  · funext i
    revert i
    decide!
  · funext i
    revert i
    decide!
  · funext i
    revert i
    decide!
  · funext i
    revert i
    decide!

/-- Evaluation of the code at the failing input of claim C19 (coming to rest).  Ball 1 is the
only ball alive, with direction `(1, 0)` of length 1 and impulse `0.5`, in the middle of the
table.  The integration test `x != 0 && y != 0` of line 280 is false, so the ball is neither
moved nor slowed: `update` returns the state unchanged for every `dt`, and after any number
of `update` calls the impulse of ball 1 is still `0.5`. -/
theorem coming_to_rest_fails :
    (∀ i, stuckBall.proofExisting i = true ↔ i = 1) ∧
      stuckBall.dxdyVector 1 = ⟨1, 0⟩ ∧ stuckBall.impulses 1 = 0.5 ∧
      (∀ dt, update FloatOps.rat dt stuckBall = stuckBall) ∧
      ∀ dts : List ℚ,
        (dts.foldl (fun s dt => update FloatOps.rat dt s) stuckBall).impulses 1 = 0.5 := by
  refine ⟨by decide!, by decide!, by decide!, update_stuckBall, fun dts => ?_⟩
  have h : dts.foldl (fun s dt => update FloatOps.rat dt s) stuckBall = stuckBall := by
    induction dts with
    | nil => rfl
    | cons dt l ih =>
      rw [List.foldl_cons, update_stuckBall dt]
      exact ih
  rw [h]
  decide!

/-! ## The impulses stay between 0 and `0.5` -/

theorem inRange_update {f : Fin 7 → ℚ} (h : InRange f) (i : Fin 7) {v : ℚ} (h0 : 0 ≤ v)
    (h1 : v ≤ 0.5) : InRange (Function.update f i v) := by
  intro k
  by_cases hk : k = i
  · subst hk
    rw [Function.update_same]
    exact ⟨h0, h1⟩
  · rw [Function.update_noteq hk]
    exact h k

theorem inRange_scale {f : Fin 7 → ℚ} (h : InRange f) (i k : Fin 7) {c : ℚ} (hc0 : 0 ≤ c)
    (hc1 : c ≤ 1) : InRange (Function.update f i (f k * c)) := by
  have hk := h k
  refine inRange_update h i (mul_nonneg hk.1 hc0) ?_
  calc f k * c ≤ f k * 1 := mul_le_mul_of_nonneg_left hc1 hk.1
    _ = f k := mul_one _
    _ ≤ 0.5 := hk.2

theorem moveBall_inRange (F : FloatOps) (s : State) (i : Fin 7) (h : InRange s.impulses) :
    InRange (moveBall F s i).impulses := by
  have haim : (aim F i s).impulses = s.impulses := by
    unfold aim
    dsimp only
    split_ifs <;> rfl
  unfold moveBall
  split_ifs
  · exact h
  · unfold integrate tableBallMovingKoef
    dsimp only
    rw [haim]
    split_ifs
    · exact inRange_update h i (le_refl _) (by norm_num)
    · exact inRange_scale h i i (by norm_num) (by norm_num)
    · rw [haim]
      exact h

theorem resolve_inRange (F : FloatOps) (s : State) (i j : Fin 7) (h : InRange s.impulses) :
    InRange (resolve F s i j).impulses := by
  unfold resolve ballsCollisionKoef
  dsimp only
  split_ifs
  · have h1 := inRange_update h i (h j).1 (h j).2
    have h2 := inRange_scale h1 i i (c := 0.997) (by norm_num) (by norm_num)
    exact inRange_scale h2 j j (by norm_num) (by norm_num)
  · have h1 := inRange_update h j (h i).1 (h i).2
    have h2 := inRange_scale h1 i i (c := 0.997) (by norm_num) (by norm_num)
    exact inRange_scale h2 j j (by norm_num) (by norm_num)

theorem collideBall_inRange (F : FloatOps) (s : State) (i : Fin 7) (h : InRange s.impulses) :
    InRange (collideBall F s i).impulses := by
  unfold collideBall
  split_ifs
  · exact h
  · refine foldl_keeps (fun t => InRange t.impulses) (collidePair F i) _ (fun t j ht => ?_) s h
    unfold collidePair
    split_ifs
    · exact ht
    · exact resolve_inRange F t i j ht
    · exact ht

theorem wallBall_inRange (s : State) (i : Fin 7) (h : InRange s.impulses) :
    InRange (wallBall s i).impulses := by
  unfold wallBall tableEdgeKoef
  dsimp only
  split_ifs
  · exact inRange_scale h i i (by norm_num) (by norm_num)
  · exact inRange_scale h i i (by norm_num) (by norm_num)
  · exact inRange_scale h i i (by norm_num) (by norm_num)
  · exact inRange_scale h i i (by norm_num) (by norm_num)
  · exact h
  · exact h

theorem inRange_zero : InRange fun _ => 0 := fun _ => ⟨le_refl _, by norm_num⟩

theorem pocketLoop_inRange (F : FloatOps) :
    ∀ (l : List (Vector2 × Fin 7)) (s : State), InRange s.impulses →
      InRange (pocketLoop F l s).1.impulses
  | [], _, h => h
  | (w, i) :: rest, s, h => by
    unfold pocketLoop
    split_ifs
    · exact pocketLoop_inRange F rest s h
    · exact inRange_zero
    · exact pocketLoop_inRange F rest _ (inRange_update h i (le_refl _) (by norm_num))
    · exact pocketLoop_inRange F rest s h

theorem update_inRange (F : FloatOps) (dt : ℚ) (s : State) (h : InRange s.impulses) :
    InRange (update F dt s).impulses := by
  cases hm : moving s
  · rw [update_of_idle F dt s hm, (chargeTick_fields dt _).2.2.1]
    exact h
  · rw [update_of_moving F dt s hm]
    have h1 : InRange (atPockets F s).impulses := by
      unfold atPockets beforePockets movePhase collisionPhase wallPhase
      have a := foldl_keeps (fun t => InRange t.impulses) (moveBall F) allBalls
        (fun t i ht => moveBall_inRange F t i ht) { s with flagImpulses := moving s } h
      have b := foldl_keeps (fun t => InRange t.impulses) (collideBall F) allBalls
        (fun t i ht => collideBall_inRange F t i ht) _ a
      exact foldl_keeps (fun t => InRange t.impulses) wallBall allBalls
        (fun t i ht => wallBall_inRange t i ht) _ b
    have h2 := pocketLoop_inRange F pocketChecks (atPockets F s) h1
    unfold pocketPhase
    split_ifs
    · exact h2
    · rw [(chargeTick_fields dt _).2.2.1]
      exact h2

/-- Claim C15 (impulse range).  In every state the program can be in - the globals as
initialised, then any calls of `init`, `update(dt)` with `dt ≥ 0`, `mouseButtonPressed` and
`mouseButtonReleased`, so in particular in every state reachable from `init()` - every ball's
impulse satisfies `0 ≤ impulse ≤ 0.5`. -/
theorem impulse_range (F : FloatOps) (s : State) (h : Played F s) (i : Fin 7) :
    0 ≤ s.impulses i ∧ s.impulses i ≤ 0.5 := by
  have key : ∀ t, Played F t → InRange t.impulses := by
    intro t ht
    induction ht with
    | start => exact inRange_zero
    | init _ _ => exact inRange_zero
    | @update dt _ u _ ih => exact update_inRange F dt u ih
    | pressed x y _ ih => exact ih
    | @released x y u hu ih =>
      have hc : 0 ≤ u.shotChargeProgress ∧ u.shotChargeProgress ≤ 1 := by
        clear ih
        induction hu with
        | start => exact ⟨le_refl _, zero_le_one⟩
        | init _ ih2 => exact ih2
        | @update dt hdt v _ ih2 =>
          rw [(update_shot F dt v).2]
          split_ifs
          · refine ⟨le_min ?_ zero_le_one, min_le_right _ _⟩
            have : 0 ≤ dt / Params.Shot.chargeTime := by
              unfold Params.Shot.chargeTime
              simpa using hdt
            linarith [ih2.1]
          · exact ih2
        | pressed _ _ _ ih2 => exact ih2
        | released _ _ _ _ =>
          unfold mouseButtonReleased
          exact ⟨le_refl _, zero_le_one⟩
      unfold mouseButtonReleased
      dsimp only
      split_ifs
      · refine inRange_update ih 0 (by linarith [hc.1]) ?_
        norm_num
        linarith [hc.2]
      · exact ih
      · exact ih
  exact key s h i

theorem impulse_range_witness :
    (mouseButtonReleased 3 1 charged).impulses 0 = 0.5 ∧
      (0 ≤ (mouseButtonReleased 3 1 charged).impulses 0 ∧
        (mouseButtonReleased 3 1 charged).impulses 0 ≤ 0.5) :=
  ⟨by decide!, impulse_range FloatOps.rat (mouseButtonReleased 3 1 charged)
    (Played.released 3 1 played_charged) 0⟩

/-! ## Directions of length 1 -/

theorem aimed_sq (F : FloatOps) (hF : F.ExactDiv) (s : State) (h0 : F.sqrtf (aimSq s) ≠ 0) :
    (aimed F s).x * (aimed F s).x + (aimed F s).y * (aimed F s).y =
      aimSq s / (F.sqrtf (aimSq s) * F.sqrtf (aimSq s)) := by
  have e : aimed F s =
      ⟨(s.mouseCoordinates.x - (s.dtPositionOfBalls 0).x) / F.sqrtf (aimSq s),
        (s.mouseCoordinates.y - (s.dtPositionOfBalls 0).y) / F.sqrtf (aimSq s)⟩ := by
    unfold aimed aimDirection Vector2.div
    dsimp only
    rw [← hF _ _ h0, ← hF _ _ h0]
    rfl
  rw [e]
  dsimp only
  generalize F.sqrtf (aimSq s) = L at h0
  unfold aimSq
  field_simp
  ring

theorem moveBall_lenOrZero (F : FloatOps) (c : ℚ) (s : State) (i : Fin 7)
    (h : LenOrZero c (s.dxdyVector i))
    (haim : i = 0 → s.proofExisting 0 = true → s.dxdyVector 0 = ⟨0, 0⟩ →
      LenOrZero c (aimed F s)) :
    LenOrZero c ((moveBall F s i).dxdyVector i) := by
  unfold moveBall
  split_ifs with hd
  · exact h
  · have ha : s.proofExisting i = true := by
      cases hb : s.proofExisting i
      · exact absurd hb hd
      · rfl
    have h1 : LenOrZero c ((aim F i s).dxdyVector i) := by
      by_cases hz : i = 0 ∧ (s.dxdyVector i).x = 0 ∧ (s.dxdyVector i).y = 0
      · obtain ⟨hi, hx, hy⟩ := hz
        subst hi
        have hd0 : s.dxdyVector 0 = ⟨0, 0⟩ := by
          cases hv : s.dxdyVector 0
          rw [hv] at hx hy
          simp only at hx hy
          rw [hx, hy]
        rw [(aim_player F s hd0).1]
        exact haim rfl ha hd0
      · unfold aim
        rw [if_neg hz]
        exact h
    unfold integrate
    dsimp only
    split_ifs
    · simp only [Function.update_same]
      exact Or.inl rfl
    · exact h1
    · exact h1

theorem wallBall_lenOrZero (c : ℚ) (s : State) (i : Fin 7) (h : LenOrZero c (s.dxdyVector i)) :
    LenOrZero c ((wallBall s i).dxdyVector i) := by
  have hneg : ∀ v : Vector2, LenOrZero c v → LenOrZero c ⟨v.x * -1, v.y⟩ ∧
      LenOrZero c ⟨v.x, v.y * -1⟩ := by
    intro v hv
    rcases hv with hv | hv
    · subst hv
      exact ⟨Or.inl (by simp), Or.inl (by simp)⟩
    · exact ⟨Or.inr (by dsimp only; linarith), Or.inr (by dsimp only; linarith)⟩
  unfold wallBall
  dsimp only
  split_ifs
  · simp only [Function.update_same]
    exact (hneg _ h).1
  · simp only [Function.update_same]
    exact (hneg _ h).1
  · simp only [Function.update_same]
    exact (hneg _ h).2
  · simp only [Function.update_same]
    exact (hneg _ h).2
  · exact h
  · exact h

theorem pocketLoop_lenOrZero (F : FloatOps) (c : ℚ) (i : Fin 7) :
    ∀ (l : List (Vector2 × Fin 7)) (s : State), LenOrZero c (s.dxdyVector i) →
      LenOrZero c ((pocketLoop F l s).1.dxdyVector i)
  | [], _, h => h
  | (w, j) :: rest, s, h => by
    unfold pocketLoop
    split_ifs
    · exact pocketLoop_lenOrZero F c i rest s h
    · exact Or.inl rfl
    · refine pocketLoop_lenOrZero F c i rest _ ?_
      unfold capture
      dsimp only
      by_cases hi : i = j
      · subst hi
        rw [Function.update_same]
        exact Or.inl rfl
      · rw [Function.update_noteq hi]
        exact h
    · exact pocketLoop_lenOrZero F c i rest s h

theorem update_lenOrZero (F : FloatOps) (dt c : ℚ) (s : State) (i : Fin 7)
    (h : LenOrZero c (s.dxdyVector i))
    (hc : inCollision F i (afterMove F s) = false)
    (haim : i = 0 → aimRuns s → LenOrZero c (aimed F s)) :
    LenOrZero c ((update F dt s).dxdyVector i) := by
  cases hm : moving s
  · rw [update_of_idle F dt s hm, (chargeTick_fields dt _).2.1]
    exact h
  · rw [update_of_moving F dt s hm]
    have h1 : LenOrZero c ((afterMove F s).dxdyVector i) := by
      unfold afterMove
      rw [(movePhase_at F { s with flagImpulses := moving s } i).2.1]
      exact moveBall_lenOrZero F c _ i h (fun hi ha hd => haim hi ⟨hm, ha, hd⟩)
    have h2 : LenOrZero c ((afterCollisions F s).dxdyVector i) := by
      unfold afterCollisions
      rw [(collisionPhase_sameBall F (afterMove F s) i hc).2.1]
      exact h1
    have h3 : LenOrZero c ((atPockets F s).dxdyVector i) := by
      have e : atPockets F s = wallPhase (afterCollisions F s) := rfl
      rw [e, (wallPhase_at (afterCollisions F s) i).2.1]
      exact wallBall_lenOrZero c _ i h2
    have h4 := pocketLoop_lenOrZero F c i pocketChecks (atPockets F s) h3
    unfold pocketPhase
    split_ifs
    · exact h4
    · rw [(chargeTick_fields dt _).2.1]
      exact h4

end Game
